import Mathlib

/-!
A shallow embedding of the pirindb storage engine (package `storage`) in Lean 4,
together with theorems settling the specification claims.

Modelling conventions, used uniformly below:
* Go byte slices are `List Nat` (entries are byte values; multi-byte integers are
  little-endian, as in `encoding/binary`).
* Go machine integers (`uint64`, `uint16`, ...) are `Nat`, with an explicit
  `% 2 ^ w` wherever the source performs a narrowing cast or can wrap.
* Fallible Go code returns `Except GoErr _`; a Go runtime panic (out-of-range
  index or slice) is the distinguished error `GoErr.panic`; exhaustion of a
  model recursion budget is `GoErr.modelFuelOut` (a model artifact: every
  theorem below is conditioned so that it never stands in for a Go value).
* Go pointer mutation of B-tree nodes is modelled by write-through: the source
  always flushes a mutated node into `tx.dirtyNodes` (`setNode` / `writeNodes`)
  before the node is next fetched, so fetching afresh from the dirty-node map at
  each use is equivalent whenever distinct node objects sit on distinct pages,
  which holds throughout the concrete executions used below.
* `float32` arithmetic on the fill-percent constants is modelled exactly by
  dyadic rationals (`F32`): `0.45` and `0.95` denote their IEEE-754 binary32
  roundings, and the products and comparisons the source performs on them are
  exact in binary32 for the power-of-two page sizes used here.
-/

deriving instance DecidableEq for Except

namespace PirinDB

/-- Byte strings (Go `[]byte`). -/
abbrev Bytes := List Nat

/-- Little-endian encoding of `v` on `k` bytes (as `encoding/binary.PutUintNN`,
including the truncation a narrowing cast performs). -/
def uleBytes : Nat → Nat → Bytes
  | 0, _ => []
  | k + 1, v => v % 256 :: uleBytes k (v / 256)

/-- Little-endian decoding (as `encoding/binary.UintNN`). -/
def uleDecode : Bytes → Nat
  | [] => 0
  | b :: rest => b + 256 * uleDecode rest

/-- Read a `k`-byte little-endian integer at `pos`; `none` models the Go panic
when fewer than `k` bytes remain. -/
def readULE (k : Nat) (l : Bytes) (pos : Nat) : Option Nat :=
  if pos + k ≤ l.length then some (uleDecode ((l.drop pos).take k)) else none

/-- Go `copy(dst[pos:], src)`: overwrites at `pos`, clamped to `dst`'s length,
never failing. -/
def copyAt (dst : Bytes) (pos : Nat) (src : Bytes) : Bytes :=
  dst.take pos ++ src.take (dst.length - pos) ++ dst.drop (pos + src.length)

/-- Go `binary.LittleEndian.PutUintNN(dst[pos:], v)`: writes `k` bytes at `pos`;
`none` models the panic when fewer than `k` bytes remain. -/
def putULE (k : Nat) (dst : Bytes) (pos : Nat) (v : Nat) : Option Bytes :=
  if pos + k ≤ dst.length then some (copyAt dst pos (uleBytes k v)) else none

/-- Association-list update-or-append, modelling assignment into a Go map. -/
def upsert (l : List (Nat × α)) (k : Nat) (v : α) : List (Nat × α) :=
  match l with
  | [] => [(k, v)]
  | (k', v') :: rest => if k' = k then (k, v) :: rest else (k', v') :: upsert rest k v

/-- Association-list lookup for Go map access. -/
def alookup (l : List (Nat × α)) (k : Nat) : Option α :=
  match l with
  | [] => none
  | (k', v') :: rest => if k' = k then some v' else alookup rest k

/-- Go `bytes.Compare`: lexicographic comparison of byte strings. -/
def bytesCompare : Bytes → Bytes → Ordering
  | [], [] => .eq
  | [], _ :: _ => .lt
  | _ :: _, [] => .gt
  | a :: as, b :: bs => if a < b then .lt else if b < a then .gt else bytesCompare as bs

/-- Errors of the source's taxonomy (`errors.go`), plus `panic` for Go runtime
panics and `modelFuelOut` for exhaustion of a model recursion budget. -/
inductive GoErr where
  | keyTooLarge
  | valueTooLarge
  | notEnoughSpace
  | noPagesLeft
  | bucketNotFound
  | bucketExists
  | txClosed
  | writeInRxTransaction
  | nodeNotFound
  | blobTooLarge
  | unknownItemType
  | badDbVersion
  | badDbName
  | mergeOverflow
  | pageOutOfRange
  | ioError
  | crcMismatch
  | couldNotReadMeta
  | couldNotReadFreelist
  | panic
  | modelFuelOut
deriving Repr, DecidableEq

/-- Modelled from the spec: the integer-width constants (`UInt8Size` etc.) are
declared in a repository constants file that is not present under `src/`; the
spec's layout diagrams (§3, §4.4-§4.6) fix them as the standard widths. -/
def UInt8Size : Nat := 1

/-- Modelled from the spec: see `UInt8Size`. -/
def UInt16Size : Nat := 2

/-- Modelled from the spec: see `UInt8Size`. -/
def UInt32Size : Nat := 4

/-- Modelled from the spec: see `UInt8Size`. -/
def UInt64Size : Nat := 8

/-- Modelled from the spec: `BTreePageSize` is declared in a repository
constants file not present under `src/`; the spec (§3) fixes the default page
size at 4096. -/
def BTreePageSize : Nat := 4096

/-- Page type tags (`MetaPage`..`BlobPage`). -/
def MetaPage : Nat := 0

def FreeListPage : Nat := 1

def NodePage : Nat := 2

def BlobPage : Nat := 3

def MaxKeySize : Nat := 512

def MaxValueSize : Nat := 1024

def OneGigabyte : Nat := 1024 * 1024 * 1024

def minFileSize : Nat := 1024 * 32

def metaPageNumber : Nat := 0

def freelistPageNumber : Nat := 1

def rootPageNumber : Nat := 2

/-- The bytes of the string "pirindb". -/
def dbNameBytes : Bytes := [112, 105, 114, 105, 110, 100, 98]

def dbVersionMinor : Nat := 1

def dbVersionMajor : Nat := 0

/-- A non-negative binary32 quantity represented exactly as the dyadic
rational `num / 2 ^ log2den`. The two fill-percent literals and their products
with the power-of-two page sizes used here are all exactly representable in
binary32, so comparisons against them are modelled without error. -/
structure F32 where
  num : Nat
  log2den : Nat
deriving Repr, DecidableEq

/-- The binary32 value of the literal `0.45` (`MinFillPercent`):
15099494 / 2 ^ 25, exactly. -/
def MinFillPercent : F32 := ⟨15099494, 25⟩

/-- The binary32 value of the literal `0.95` (`MaxFillPercent`):
15938355 / 2 ^ 24, exactly. -/
def MaxFillPercent : F32 := ⟨15938355, 24⟩

/-- binary32 multiplication by a (power-of-two) natural number, exact here. -/
def F32.mulNat (x : F32) (n : Nat) : F32 := ⟨x.num * n, x.log2den⟩

/-- The exact comparison `x < (n : binary32)`. -/
def F32.ltNat (x : F32) (n : Nat) : Bool := x.num < n * 2 ^ x.log2den

/-- The exact comparison `(n : binary32) < x`. -/
def F32.gtNat (x : F32) (n : Nat) : Bool := n * 2 ^ x.log2den < x.num

/-- The Go conversion `int(x)` (truncation; `x` is non-negative here). -/
def F32.floorNat (x : F32) : Nat := x.num / 2 ^ x.log2den

def NodePageTypeSize : Nat := UInt8Size

def NodeTypeSize : Nat := UInt8Size

def NodeNumItemsSize : Nat := UInt16Size

def NodeHeaderSize : Nat := NodePageTypeSize + NodeTypeSize + NodeNumItemsSize

def NodePageTypeOffset : Nat := 0

def NodeTypeOffset : Nat := NodePageTypeOffset + NodePageTypeSize

def NodeNumItemsOffset : Nat := NodeTypeOffset + NodeTypeSize

def ValueSimple : Nat := 0

def ValueBlob : Nat := 1

/-- A key-value pair stored in a B-tree node (`Item` in `bnode.go`). -/
structure Item where
  key : Bytes
  value : Bytes
deriving Repr, DecidableEq

/-- A B-tree node (`BNode` in `bnode.go`). -/
structure BNode where
  pageNum : Nat
  items : List Item
  childNodes : List Nat
deriving Repr, DecidableEq

def NewBNode : BNode := ⟨0, [], []⟩

def BNode.numChildren (node : BNode) : Nat := node.childNodes.length

def BNode.isLeaf (node : BNode) : Bool := node.numChildren == 0

def BNode.numItems (node : BNode) : Nat := node.items.length

def BNode.elemSize (item : Item) : Nat :=
  UInt16Size + item.key.length + UInt16Size + item.value.length + UInt64Size

def BNode.size (node : BNode) : Nat :=
  NodeHeaderSize + (node.items.map BNode.elemSize).sum

/-- The binary-search loop of `findKeyPosition`. `left`/`right` are the Go
`int` bounds (`right` can go to -1); the fuel always suffices for the real
loop, which shrinks the interval every iteration. -/
def findKeyLoop (items : List Item) (key : Bytes) : Nat → Int → Int → Nat × Bool
  | 0, left, _ => (left.toNat, false)
  | fuel + 1, left, right =>
    if left ≤ right then
      let middle := left + (right - left) / 2
      let it := items.getD middle.toNat ⟨[], []⟩
      match bytesCompare it.key key with
      | .eq => (middle.toNat, true)
      | .lt => findKeyLoop items key fuel (middle + 1) right
      | .gt => findKeyLoop items key fuel left (middle - 1)
    else (left.toNat, false)

/-- `BNode.findKeyPosition`: binary search for `key`; returns the position and
whether an exact match was found. -/
def BNode.findKeyPosition (node : BNode) (key : Bytes) : Nat × Bool :=
  if node.items.isEmpty then (0, false)
  else findKeyLoop node.items key (node.items.length + 1) 0 ((node.items.length : Int) - 1)

/-- The per-item serialization step of `BNode.Serialize`: length-prefixed key
and value bytes written sequentially at `kvPos`, with the source's space check
(which compares `kvPos + len(key) + len(value)` against the buffer length
before writing the four length bytes). -/
def serializeItems : List Item → Bytes → Nat → Except GoErr Bytes
  | [], data, _ => .ok data
  | item :: rest, data, kvPos =>
    if kvPos + item.key.length + item.value.length ≥ data.length then
      .error .notEnoughSpace
    else
      match putULE 2 data kvPos item.key.length with
      | none => .error .panic
      | some data =>
        match putULE 2 data (kvPos + UInt16Size) item.value.length with
        | none => .error .panic
        | some data =>
          let data := copyAt data (kvPos + 2 * UInt16Size) item.key
          let data := copyAt data (kvPos + 2 * UInt16Size + item.key.length) item.value
          serializeItems rest data (kvPos + 2 * UInt16Size + item.key.length + item.value.length)

/-- The child-pointer serialization loop of `BNode.Serialize`. -/
def serializeChildren : List Nat → Bytes → Nat → Except GoErr Bytes
  | [], data, _ => .ok data
  | c :: rest, data, pos =>
    match putULE 8 data pos c with
    | none => .error .panic
    | some data => serializeChildren rest data (pos + UInt64Size)

/-- `BNode.Serialize`: clears the page buffer, writes the header (page type,
leaf flag, item count), the child count and child page numbers, then each item. -/
def BNode.serialize (node : BNode) (data0 : Bytes) : Except GoErr Bytes :=
  let bitSetVar : Nat := if node.isLeaf then 1 else 0
  let data := List.replicate data0.length 0
  match putULE 1 data NodePageTypeOffset NodePage with
  | none => .error .panic
  | some data =>
    match putULE 1 data NodeTypeOffset bitSetVar with
    | none => .error .panic
    | some data =>
      match putULE 2 data NodeNumItemsOffset (node.numItems % 2 ^ 16) with
      | none => .error .panic
      | some data =>
        match putULE 2 data NodeHeaderSize (node.childNodes.length % 2 ^ 16) with
        | none => .error .panic
        | some data =>
          match serializeChildren node.childNodes data (NodeHeaderSize + UInt16Size) with
          | .error e => .error e
          | .ok data =>
            serializeItems node.items data
              (NodeHeaderSize + UInt16Size + UInt64Size * node.childNodes.length)

/-- The child-pointer reading loop of `BNode.Deserialize`. -/
def deserializeChildren (data : Bytes) : Nat → Nat → Option (List Nat × Nat)
  | _, 0 => some ([], 0)
  | pos, cnt + 1 =>
    match readULE 8 data pos with
    | none => none
    | some c =>
      match deserializeChildren data (pos + UInt64Size) cnt with
      | none => none
      | some (cs, used) => some (c :: cs, used + UInt64Size)

/-- The item reading loop of `BNode.Deserialize`; `none` models the Go panic
on slicing past the end of the page. -/
def deserializeItems (data : Bytes) : Nat → Nat → Option (List Item)
  | _, 0 => some []
  | pos, cnt + 1 =>
    match readULE 2 data pos, readULE 2 data (pos + UInt16Size) with
    | some keyLen, some valueLen =>
      if pos + 2 * UInt16Size + keyLen + valueLen ≤ data.length then
        let key := (data.drop (pos + 2 * UInt16Size)).take keyLen
        let value := (data.drop (pos + 2 * UInt16Size + keyLen)).take valueLen
        match deserializeItems data (pos + 2 * UInt16Size + keyLen + valueLen) cnt with
        | none => none
        | some rest => some (⟨key, value⟩ :: rest)
      else none
    | _, _ => none

/-- `BNode.Deserialize`: reads the leaf flag, item count and child count, the
child page numbers when the leaf flag is clear, then the items. The resulting
node has `pageNum` 0 (`NewBNode`); callers set it afterwards. -/
def BNode.deserialize (data : Bytes) : Option BNode :=
  match readULE 1 data NodeTypeOffset, readULE 2 data NodeNumItemsOffset,
      readULE 2 data NodeHeaderSize with
  | some isLeafB, some numItems, some numbChildren =>
    let childRead : Option (List Nat) :=
      if isLeafB = 0 then
        match deserializeChildren data (NodeHeaderSize + UInt16Size) numbChildren with
        | none => none
        | some (cs, _) => some cs
      else some []
    match childRead with
    | none => none
    | some cs =>
      let pos := NodeHeaderSize + UInt16Size +
        (if isLeafB = 0 then UInt64Size * numbChildren else 0)
      match deserializeItems data pos numItems with
      | none => none
      | some its => some { NewBNode with items := its, childNodes := cs }
  | _, _, _ => none

/-- A fixed-size page (`Page` in the page file). -/
structure Page where
  pageNumber : Nat
  data : Bytes
deriving Repr, DecidableEq

/-- `Page.Clear`. -/
def Page.clear (p : Page) : Page := { p with data := List.replicate p.data.length 0 }

def freelistPageTypeSize : Nat := UInt8Size

def freelistNextPageSize : Nat := UInt64Size

def freelistCurrentPageSize : Nat := UInt64Size

def freelistMaxPagesSize : Nat := UInt64Size

def freelistNumPagesSize : Nat := UInt64Size

def freelistPageTypeOffset : Nat := 0

def freelistNextPageOffset : Nat := freelistPageTypeOffset + freelistPageTypeSize

def freelistCurrentPageOffset : Nat := freelistNextPageOffset + freelistNextPageSize

def freelistMaxPagesOffset : Nat := freelistCurrentPageOffset + freelistCurrentPageSize

def freelistNumPagesOffset : Nat := freelistMaxPagesOffset + freelistMaxPagesSize

def freelistFirstPageEntriesOffset : Nat := freelistNumPagesOffset + freelistNumPagesSize

def freelistExtraPageEntriesOffset : Nat := freelistNextPageOffset + freelistNextPageSize

/-- The free-page manager (`Freelist` in `freelist.go`). -/
structure Freelist where
  currentPage : Nat
  maxPages : Nat
  releasedPages : List Nat
  freelistPages : List Nat
  entriesPerFirstPage : Nat
  entriesPerExtraPage : Nat
  dirty : Bool
deriving Repr, DecidableEq

/-- `calculateFreelistCapacity`. -/
def calculateFreelistCapacity (pageSize : Nat) : Nat × Nat :=
  ((pageSize - freelistFirstPageEntriesOffset) / UInt64Size - 1,
   (pageSize - freelistExtraPageEntriesOffset) / UInt64Size - 1)

/-- `NewFreelist`. -/
def NewFreelist (pageSize : Nat) (maxPages : Nat) : Freelist :=
  let caps := calculateFreelistCapacity pageSize
  { currentPage := rootPageNumber
    maxPages := maxPages
    releasedPages := []
    freelistPages := []
    entriesPerFirstPage := caps.1
    entriesPerExtraPage := caps.2
    dirty := false }

/-- `Freelist.GetNextPageNumber`: pop the released stack (LIFO), else advance
the high-water page number, else fail with `ErrNoPagesLeft`. -/
def Freelist.GetNextPageNumber (f : Freelist) : Except GoErr (Nat × Freelist) :=
  let f := { f with dirty := true }
  if f.releasedPages.length > 0 then
    let pageNum := f.releasedPages.getLast!
    .ok (pageNum, { f with releasedPages := f.releasedPages.dropLast })
  else if f.currentPage ≥ (f.maxPages + 2 ^ 64 - 1) % 2 ^ 64 then
    .error .noPagesLeft
  else
    .ok (f.currentPage + 1, { f with currentPage := f.currentPage + 1 })

/-- `Freelist.ReleasePage`: append to the released stack. -/
def Freelist.ReleasePage (f : Freelist) (pageNum : Nat) : Freelist :=
  { f with dirty := true, releasedPages := f.releasedPages ++ [pageNum] }

/-- `calculatePagesNeeded`. -/
def calculatePagesNeeded (numEntries entriesPerFirstPage entriesPerExtraPage : Nat) : Nat :=
  if numEntries ≤ entriesPerFirstPage then 1
  else 1 + (numEntries - entriesPerFirstPage + entriesPerExtraPage - 1) / entriesPerExtraPage

/-- The meta page (`Meta` in `meta.go`). -/
structure Meta where
  dbName : Bytes
  dbVersion : Nat
  root : Nat
  freelistPageNumber : Nat
  pageSize : Nat
deriving Repr, DecidableEq

def metaPageSize : Nat := UInt8Size

def metaDbNameSize : Nat := dbNameBytes.length

def metaDbVersionSize : Nat := UInt16Size

def metaRootPageNumberSize : Nat := UInt64Size

def metaFreelistPageNumberSize : Nat := UInt64Size

def metaPageTypeOffset : Nat := 0

def metaDbNameOffset : Nat := metaPageTypeOffset + metaPageSize

def metaDbVersionOffset : Nat := metaDbNameOffset + metaDbNameSize

def metaRootPageNumberOffset : Nat := metaDbVersionOffset + metaDbVersionSize

def metaFreelistPageNumberOffset : Nat := metaRootPageNumberOffset + metaRootPageNumberSize

def metaPageSizeOffset : Nat := metaFreelistPageNumberOffset + metaFreelistPageNumberSize

/-- `NewMeta`. -/
def NewMeta (pageSize : Nat) : Meta :=
  { dbName := dbNameBytes
    dbVersion := (dbVersionMajor * 2 ^ 8 + dbVersionMinor) % 2 ^ 16
    root := rootPageNumber
    freelistPageNumber := freelistPageNumber
    pageSize := pageSize }

/-- `Meta.Serialize`: writes the meta fields into the page buffer (without
clearing it first). -/
def Meta.serialize (m : Meta) (data : Bytes) : Except GoErr Bytes :=
  match putULE 1 data metaPageTypeOffset MetaPage with
  | none => .error .panic
  | some data =>
    let data := copyAt data metaDbNameOffset m.dbName
    match putULE 2 data metaDbVersionOffset m.dbVersion with
    | none => .error .panic
    | some data =>
      match putULE 8 data metaRootPageNumberOffset m.root with
      | none => .error .panic
      | some data =>
        match putULE 8 data metaFreelistPageNumberOffset m.freelistPageNumber with
        | none => .error .panic
        | some data =>
          match putULE 8 data metaPageSizeOffset m.pageSize with
          | none => .error .panic
          | some data => .ok data

/-- `Meta.Deserialize` (the page-type mismatch is only logged by the source). -/
def Meta.deserialize (data : Bytes) : Option Meta :=
  if metaPageSizeOffset + UInt64Size ≤ data.length then
    some { dbName := (data.drop metaDbNameOffset).take metaDbNameSize
           dbVersion := uleDecode ((data.drop metaDbVersionOffset).take 2)
           root := uleDecode ((data.drop metaRootPageNumberOffset).take 8)
           freelistPageNumber := uleDecode ((data.drop metaFreelistPageNumberOffset).take 8)
           pageSize := uleDecode ((data.drop metaPageSizeOffset).take 8) }
  else none

def txLogNumPagesSize : Nat := UInt64Size

def txLogPageSizeBytes : Nat := UInt16Size

def txLogCRCSize : Nat := UInt32Size

def txLogHeaderSize : Nat := txLogNumPagesSize + txLogPageSizeBytes + txLogCRCSize

def txLogPageOffsetSize : Nat := UInt64Size

def txLogPageNumberSize : Nat := UInt64Size

def txLogPageHeaderSize : Nat := txLogPageOffsetSize + txLogPageNumberSize

def txLogNumPages : Nat := 0

def txLogPageSize : Nat := txLogNumPages + txLogNumPagesSize

def txLogCRC : Nat := txLogPageSize + txLogPageSizeBytes

def txLogPageOffset : Nat := 0

def txLogPageNumber : Nat := txLogPageOffset + txLogPageOffsetSize

/-- One step of CRC-32 (IEEE polynomial, reflected), as `hash/crc32` computes
it: xor the byte into the inverted register, then eight conditional shifts by
the reversed polynomial `0xEDB88320`. -/
def crc32Step (crc : Nat) (b : Nat) : Nat :=
  let c0 := crc ^^^ (b % 256)
  let round := fun (c : Nat) => if c % 2 = 1 then (c / 2) ^^^ 0xEDB88320 else c / 2
  round (round (round (round (round (round (round (round c0)))))))

/-- Incremental CRC-32: `crc` is the public (already-inverted) digest value,
exactly as `hash/crc32`'s `Write` maintains it. -/
def crc32Update (crc : Nat) (data : Bytes) : Nat :=
  ((data.foldl crc32Step (crc ^^^ 0xFFFFFFFF)) ^^^ 0xFFFFFFFF) % 2 ^ 32

/-- CRC-32 of a byte string (`crc32.New` then `Write` then `Sum32`). -/
def crc32Of (data : Bytes) : Nat := crc32Update 0 data

/-- The double-write journal (`TxLog` in the tx-log file). `fileBytes` is the
content of the side-car `.tlog` file; `crcState` is the running digest. -/
structure TxLog where
  fileBytes : Bytes
  numPages : Nat
  pageSize : Nat
  crcState : Nat
  active : Bool
deriving Repr, DecidableEq

/-- `NewTxLog` (the file starts with whatever bytes it had on disk). -/
def NewTxLog (fileBytes : Bytes) : TxLog :=
  { fileBytes := fileBytes, numPages := 0, pageSize := BTreePageSize, crcState := 0,
    active := false }

/-- `TxLog.enter`: truncate the log, leave a header-sized hole, activate. -/
def TxLog.enter (t : TxLog) : TxLog :=
  { t with fileBytes := List.replicate txLogHeaderSize 0, active := true, crcState := 0,
           numPages := 0 }

/-- `TxLog.leave`: write the header (page count, page size, CRC) at offset 0
and deactivate. -/
def TxLog.leave (t : TxLog) : TxLog :=
  let header := List.replicate txLogHeaderSize 0
  let header := copyAt header txLogNumPages (uleBytes 8 t.numPages)
  let header := copyAt header txLogPageSize (uleBytes 2 (t.pageSize % 2 ^ 16))
  let header := copyAt header txLogCRC (uleBytes 4 t.crcState)
  { t with fileBytes := copyAt t.fileBytes 0 header, active := false }

/-- `TxLog.writePage`: append the record header (file offset, page number) and
the page bytes, folding both into the running CRC. -/
def TxLog.writePage (t : TxLog) (offset : Nat) (page : Page) : TxLog :=
  let recHeader := uleBytes 8 offset ++ uleBytes 8 page.pageNumber
  { t with fileBytes := t.fileBytes ++ recHeader ++ page.data
           crcState := crc32Update (crc32Update t.crcState recHeader) page.data
           numPages := t.numPages + 1 }

/-- Instrumentation: the externally visible write actions of the data-access
layer, in order. -/
inductive DalEvent where
  | fileWrite (pageNum : Nat)
  | logAppend (pageNum : Nat)
  | logEnter
  | logLeave
deriving Repr, DecidableEq

/-- The data-access layer (`Dal` in the non-mmap pager file). `filePages` is
the main database file, sparse over zero pages; `trace` is ghost
instrumentation recording write actions. -/
structure Dal where
  filePages : List (Nat × Bytes)
  size : Nat
  maxPages : Nat
  freelist : Freelist
  meta : Meta
  txLog : TxLog
  trace : List DalEvent
deriving Repr, DecidableEq

/-- The bytes of file page `n` (a page never written reads as zeros: the file
is truncated to its full size). -/
def Dal.lookupFile (dal : Dal) (n : Nat) : Bytes :=
  (alookup dal.filePages n).getD (List.replicate dal.meta.pageSize 0)

/-- `Dal.GetPage`: bounds check against `maxPages`, then read the page bytes. -/
def Dal.GetPage (dal : Dal) (pageNumber : Nat) : Except GoErr Page :=
  if pageNumber ≥ dal.maxPages then .error .pageOutOfRange
  else .ok ⟨pageNumber, dal.lookupFile pageNumber⟩

/-- `Dal.SetPage`: with the journal active the page is routed to the log;
otherwise it is written in place in the main file (the `beforeSetPageHook` is
nil here). -/
def Dal.SetPage (dal : Dal) (page : Page) : Except GoErr Dal :=
  let offset := page.pageNumber * dal.meta.pageSize
  if dal.txLog.active then
    .ok { dal with txLog := dal.txLog.writePage offset page
                   trace := dal.trace ++ [.logAppend page.pageNumber] }
  else
    .ok { dal with filePages := upsert dal.filePages page.pageNumber page.data
                   trace := dal.trace ++ [.fileWrite page.pageNumber] }

/-- `Dal.allocateFile`: record the new size and propagate `maxPages`. -/
def Dal.allocateFile (dal : Dal) (size : Nat) : Dal :=
  let maxPages := size / dal.meta.pageSize
  { dal with size := size, maxPages := maxPages,
             freelist := { dal.freelist with maxPages := maxPages } }

/-- `Dal.expandAllocation`: double while under 1 GiB, else add 1 GiB. -/
def Dal.expandAllocation (dal : Dal) : Dal :=
  if dal.size < OneGigabyte then dal.allocateFile (dal.size * 2)
  else dal.allocateFile (dal.size + OneGigabyte)

/-- `Dal.AllocatePage`: next page number from the freelist (growing the file
once when none are left), then the zeroed page. -/
def Dal.AllocatePage (dal : Dal) : Except GoErr (Page × Dal) :=
  match dal.freelist.GetNextPageNumber with
  | .ok (newPageNum, f) =>
    let dal := { dal with freelist := f }
    match dal.GetPage newPageNum with
    | .error e => .error e
    | .ok page => .ok (page.clear, dal)
  | .error .noPagesLeft =>
    let dal := dal.expandAllocation
    match dal.freelist.GetNextPageNumber with
    | .error e => .error e
    | .ok (newPageNum, f) =>
      let dal := { dal with freelist := f }
      match dal.GetPage newPageNum with
      | .error e => .error e
      | .ok page => .ok (page.clear, dal)
  | .error e => .error e

/-- `Dal.ReleasePage`: page 0 is refused; otherwise delegate to the freelist. -/
def Dal.ReleasePage (dal : Dal) (pageNumber : Nat) : Except GoErr Dal :=
  if pageNumber = 0 then .error .pageOutOfRange
  else .ok { dal with freelist := dal.freelist.ReleasePage pageNumber }

/-- `Dal.getNode`: read the page and deserialize it, stamping the page number. -/
def Dal.getNode (dal : Dal) (pageNumber : Nat) : Except GoErr BNode :=
  match dal.GetPage pageNumber with
  | .error e => .error e
  | .ok page =>
    match BNode.deserialize page.data with
    | none => .error .panic
    | some node => .ok { node with pageNum := pageNumber }

/-- `Dal.setNode`: allocate a page when the node has none, serialize into it,
and write it through `SetPage`. -/
def Dal.setNode (dal : Dal) (node : BNode) : Except GoErr (Page × Dal) :=
  let pageRes : Except GoErr (Page × Dal) :=
    if node.pageNum = 0 then dal.AllocatePage
    else match dal.GetPage node.pageNum with
      | .error e => .error e
      | .ok page => .ok (page, dal)
  match pageRes with
  | .error e => .error e
  | .ok (page, dal) =>
    match node.serialize page.data with
    | .error e => .error e
    | .ok data =>
      let page := { page with data := data }
      match dal.SetPage page with
      | .error e => .error e
      | .ok dal => .ok (page, dal)

/-- `Dal.maxThreshold` (binary32 arithmetic, exact here). -/
def Dal.maxThreshold (dal : Dal) : F32 := MaxFillPercent.mulNat dal.meta.pageSize

/-- `Dal.minThreshold` (binary32 arithmetic, exact here). -/
def Dal.minThreshold (dal : Dal) : F32 := MinFillPercent.mulNat dal.meta.pageSize

/-- `BNode.isOverPopulated`: `float32(size) > maxThreshold`, exact. -/
def BNode.isOverPopulated (node : BNode) (maxThreshold : F32) : Bool :=
  maxThreshold.ltNat node.size

/-- `BNode.isUnderPopulated`: `float32(size) < minThreshold`, exact. -/
def BNode.isUnderPopulated (node : BNode) (minThreshold : F32) : Bool :=
  minThreshold.gtNat node.size

/-- The accumulation loop of `getSplitIndex`; `size` starts at the header size
and the comparison truncates the threshold to a Go `int`. -/
def getSplitIndexLoop (thresholdInt : Nat) : List Item → Nat → Nat → Int
  | [], _, _ => -1
  | item :: rest, size, idx =>
    let size := size + BNode.elemSize item
    if thresholdInt < size then (idx : Int) + 1
    else getSplitIndexLoop thresholdInt rest size idx.succ

/-- `getSplitIndex`: one past the first index whose accumulated size exceeds
the (int-truncated) minimum threshold, or -1. -/
def getSplitIndex (node : BNode) (minThreshold : F32) : Int :=
  getSplitIndexLoop minThreshold.floorNat node.items NodeHeaderSize 0

/-- `BNode.hasExtraElement`. -/
def BNode.hasExtraElement (node : BNode) (minThreshold : F32) : Bool :=
  getSplitIndex node minThreshold != -1

/-- Association-list lookup keyed by byte strings (Go `map[string]...`). -/
def blookup (l : List (Bytes × α)) (k : Bytes) : Option α :=
  match l with
  | [] => none
  | (k', v') :: rest => if k' = k then some v' else blookup rest k

/-- Association-list update-or-append keyed by byte strings. -/
def bupsert (l : List (Bytes × α)) (k : Bytes) (v : α) : List (Bytes × α) :=
  match l with
  | [] => [(k, v)]
  | (k', v') :: rest => if k' = k then (k, v) :: rest else (k', v') :: bupsert rest k v

def BucketRootSize : Nat := UInt64Size

def BucketCounterSize : Nat := UInt64Size

def BucketItemNSize : Nat := UInt64Size

def BucketBlobsNSize : Nat := UInt64Size

def BucketBytesInUseSize : Nat := UInt64Size

def BucketTotalSize : Nat :=
  BucketRootSize + BucketCounterSize + BucketItemNSize + BucketBlobsNSize + BucketBytesInUseSize

def BucketRootOffset : Nat := 0

def BucketCounterOffset : Nat := BucketRootOffset + BucketRootSize

def BucketItemNOffset : Nat := BucketCounterOffset + BucketCounterSize

def BucketBlobNOffset : Nat := BucketItemNOffset + BucketItemNSize

def BucketBytesInUseOffset : Nat := BucketBlobNOffset + BucketBlobsNSize

/-- A named bucket (`Bucket` in `bucket.go`). `txBound` models whether the
`tx` pointer is non-nil. -/
structure Bucket where
  name : Bytes
  root : Nat
  counter : Nat
  itemsN : Nat
  blobsN : Nat
  bytesInUse : Nat
  txBound : Bool
deriving Repr, DecidableEq

/-- `newBucket`. -/
def newBucket (name : Bytes) : Bucket :=
  { name := name, root := 0, counter := 0, itemsN := 0, blobsN := 0, bytesInUse := 0,
    txBound := false }

/-- `Bucket.serialize`: the 40-byte record (root, counter, itemsN, blobsN,
bytesInUse) under the bucket's name. -/
def Bucket.serialize (bucket : Bucket) : Item :=
  let b := List.replicate BucketTotalSize 0
  let b := copyAt b BucketRootOffset (uleBytes 8 bucket.root)
  let b := copyAt b BucketCounterOffset (uleBytes 8 bucket.counter)
  let b := copyAt b BucketItemNOffset (uleBytes 8 bucket.itemsN)
  let b := copyAt b BucketBlobNOffset (uleBytes 8 bucket.blobsN)
  let b := copyAt b BucketBytesInUseOffset (uleBytes 8 bucket.bytesInUse)
  ⟨bucket.name, b⟩

/-- `Bucket.deserialize`: read the five fields back (no-op on empty data). -/
def Bucket.deserializeFields (bucket : Bucket) (data : Bytes) : Except GoErr Bucket :=
  if data.length = 0 then .ok bucket
  else
    match readULE 8 data BucketRootOffset, readULE 8 data BucketCounterOffset,
        readULE 8 data BucketItemNOffset, readULE 8 data BucketBlobNOffset,
        readULE 8 data BucketBytesInUseOffset with
    | some root, some counter, some itemsN, some blobsN, some bytesInUse =>
      .ok { bucket with root, counter, itemsN, blobsN, bytesInUse }
    | _, _, _, _, _ => .error .panic

/-- An in-flight transaction (`Tx` in `tx.go`). -/
structure Tx where
  dirtyNodes : List (Nat × BNode)
  dirtyPages : List (Nat × Page)
  dirtyBuckets : List (Bytes × Bucket)
  pagesToDelete : List Nat
  allocatedPageNums : List Nat
  write : Bool
deriving Repr, DecidableEq

/-- `newTx`. -/
def newTx (write : Bool) : Tx :=
  { dirtyNodes := [], dirtyPages := [], dirtyBuckets := [], pagesToDelete := [],
    allocatedPageNums := [], write := write }

/-- The combined mutable state a transaction acts on: its own dirty sets plus
the data-access layer it reaches through `tx.db.dal`. -/
structure St where
  tx : Tx
  dal : Dal
deriving Repr, DecidableEq

/-- `DB.Begin` (lock acquisition is outside the model): a fresh transaction
over the current DAL. -/
def DBBegin (dal : Dal) (write : Bool) : St := ⟨newTx write, dal⟩

/-- `Tx.newNode`: fresh node over a newly allocated page, recorded in
`allocatedPageNums`. The source discards `AllocatePage`'s error and would
nil-panic on failure, hence `panic` here. -/
def Tx.newNode (st : St) (items : List Item) (childNodes : List Nat) :
    Except GoErr (BNode × St) :=
  match st.dal.AllocatePage with
  | .error _ => .error .panic
  | .ok (page, dal) =>
    let node : BNode := { pageNum := page.pageNumber, items := items, childNodes := childNodes }
    .ok (node,
      { st with dal := dal
                tx := { st.tx with
                        allocatedPageNums := st.tx.allocatedPageNums ++ [page.pageNumber] } })

/-- `Tx.getNode`: the dirty-node cache, else the DAL. -/
def Tx.getNode (st : St) (page : Nat) : Except GoErr BNode :=
  match alookup st.tx.dirtyNodes page with
  | some node => .ok node
  | none => st.dal.getNode page

/-- `Tx.setNode`. -/
def Tx.setNode (st : St) (node : BNode) : St :=
  { st with tx := { st.tx with dirtyNodes := upsert st.tx.dirtyNodes node.pageNum node } }

/-- `Tx.setPage`. -/
def Tx.setPage (st : St) (page : Page) : St :=
  { st with tx := { st.tx with dirtyPages := upsert st.tx.dirtyPages page.pageNumber page } }

/-- `Tx.getPage`: the dirty-page cache, else the DAL. -/
def Tx.getPage (st : St) (pageNum : Nat) : Except GoErr Page :=
  match alookup st.tx.dirtyPages pageNum with
  | some page => .ok page
  | none => st.dal.GetPage pageNum

/-- `Tx.writeNodes`. -/
def Tx.writeNodes (st : St) (nodes : List BNode) : St :=
  nodes.foldl Tx.setNode st

/-- `Tx.deletePage`. -/
def Tx.deletePage (st : St) (pageNum : Nat) : St :=
  { st with tx := { st.tx with pagesToDelete := st.tx.pagesToDelete ++ [pageNum] } }

/-- `Tx.getRootBucket`: an unnamed bucket rooted at `meta.root`. -/
def Tx.getRootBucket (st : St) : Bucket :=
  { newBucket [] with root := st.dal.meta.root, txBound := true }

/-- Pointer aliasing of the bucket object also held in `tx.dirtyBuckets`: a
mutation of the bucket is visible through the map entry in Go, so bucket
operations write their result back into the entry when one exists. -/
def St.syncBucket (st : St) (bucket : Bucket) : St :=
  match blookup st.tx.dirtyBuckets bucket.name with
  | none => st
  | some _ =>
    { st with tx := { st.tx with dirtyBuckets := bupsert st.tx.dirtyBuckets bucket.name bucket } }

def blobPageTypeSize : Nat := UInt8Size

def blobTotalPagesSize : Nat := UInt32Size

def blobDataSizeBytes : Nat := UInt32Size

def blobNextPageNumSize : Nat := UInt64Size

def blobFirstPageTypeOffset : Nat := 0

def blobFirstPageTotalPagesOffset : Nat := blobFirstPageTypeOffset + blobPageTypeSize

def blobFirstPageDataSizeOffset : Nat := blobFirstPageTotalPagesOffset + blobTotalPagesSize

def blobFirstPageNextPageOffset : Nat := blobFirstPageDataSizeOffset + blobDataSizeBytes

def blobFirstPageDataOffset : Nat := blobFirstPageNextPageOffset + blobNextPageNumSize

def blobExtraPageTypeOffset : Nat := 0

def blobExtraPageNextPageOffset : Nat := blobExtraPageTypeOffset + blobPageTypeSize

def blobExtraPageDataOffset : Nat := blobExtraPageNextPageOffset + blobNextPageNumSize

def firstPageHeaderSize : Nat :=
  blobTotalPagesSize + blobDataSizeBytes + blobNextPageNumSize + blobPageTypeSize

def pageHeaderSize : Nat := blobNextPageNumSize + blobPageTypeSize

def maxBlobSize : Nat := OneGigabyte

/-- A value stored as a linked page chain (`Blob`). -/
structure Blob where
  startPageNum : Nat
  pageCount : Nat
  size : Nat
  data : Bytes
deriving Repr, DecidableEq

/-- `calcPageCount` (capacities are computed from the `BTreePageSize`
constant). -/
def calcPageCount (dataSize : Nat) : Nat :=
  let firstPageDataCap := BTreePageSize - firstPageHeaderSize
  let otherPageDataCap := BTreePageSize - pageHeaderSize
  if dataSize ≤ firstPageDataCap then 1
  else
    let rest := dataSize - firstPageDataCap
    1 + rest / otherPageDataCap + (if rest % otherPageDataCap ≠ 0 then 1 else 0)

/-- `NewBlob`. -/
def NewBlob (data : Bytes) : Except GoErr Blob :=
  if data.length > maxBlobSize then .error .blobTooLarge
  else .ok { startPageNum := 0, pageCount := calcPageCount data.length, size := data.length,
             data := data }

/-- The allocation loop of `Blob.Save`: `pageCount` pages up front. -/
def blobAllocPages (st : St) : Nat → Except GoErr (List Page × St)
  | 0 => .ok ([], st)
  | n + 1 =>
    match st.dal.AllocatePage with
    | .error e => .error e
    | .ok (page, dal) =>
      match blobAllocPages { st with dal := dal } n with
      | .error e => .error e
      | .ok (pages, st) => .ok (page :: pages, st)

/-- The write loop of `Blob.Save`: each page gets its type tag, the first page
additionally the page count and byte length, then the next-page pointer and a
clamped copy of the payload slice. -/
def blobSaveLoop (blob : Blob) (st : St) :
    List Page → Nat → Nat → Nat → Except GoErr St
  | [], _, _, _ => .ok st
  | page :: rest, pageIndex, dataOffset, bytesRemaining =>
    let nextPageNum := match rest with
      | [] => 0
      | nxt :: _ => if pageIndex < blob.pageCount - 1 then nxt.pageNumber else 0
    match putULE 1 page.data blobExtraPageTypeOffset BlobPage with
    | none => .error .panic
    | some data =>
      let hdrRes : Option (Bytes × Nat) :=
        if pageIndex = 0 then
          match putULE 4 data blobFirstPageTotalPagesOffset (blob.pageCount % 2 ^ 32) with
          | none => none
          | some data =>
            match putULE 4 data blobFirstPageDataSizeOffset (blob.data.length % 2 ^ 32) with
            | none => none
            | some data => some (data, blobFirstPageNextPageOffset)
        else some (data, blobExtraPageNextPageOffset)
      match hdrRes with
      | none => .error .panic
      | some (data, pos) =>
        match putULE 8 data pos nextPageNum with
        | none => .error .panic
        | some data =>
          let pos := pos + blobNextPageNumSize
          let capacity := data.length - pos
          let toCopy := min bytesRemaining capacity
          let data := copyAt data pos ((blob.data.drop dataOffset).take toCopy)
          let st := Tx.setPage st { page with data := data }
          blobSaveLoop blob st rest (pageIndex + 1) (dataOffset + toCopy)
            (bytesRemaining - toCopy)

/-- `Blob.Save`: pre-allocate the whole chain, then write every page through
the transaction's dirty-page set; returns the first page number. -/
def Blob.save (blob : Blob) (st : St) : Except GoErr (Nat × St) :=
  match blobAllocPages st blob.pageCount with
  | .error e => .error e
  | .ok (pages, st) =>
    match blobSaveLoop blob st pages 0 0 blob.data.length with
    | .error e => .error e
    | .ok st =>
      match pages.head? with
      | none => .error .panic
      | some p0 => .ok (p0.pageNumber, st)

/-- The chain-walking loop of `GetBlob`, copying each page's payload into the
output buffer (clamped by the remaining byte budget). -/
def getBlobLoop (st : St) (startPage : Page) :
    Nat → Nat → Nat → Nat → Nat → Bytes → Except GoErr Bytes
  | 0, _, _, _, _, out => .ok out
  | cnt + 1, pageIdx, nextPageNum, dataOffset, bytesRemaining, out =>
    let pageRes : Except GoErr (Page × Nat × Nat) :=
      if pageIdx = 0 then .ok (startPage, blobFirstPageDataOffset, nextPageNum)
      else
        match Tx.getPage st nextPageNum with
        | .error e => .error e
        | .ok page =>
          match readULE 8 page.data 1 with
          | none => .error .panic
          | some nxt => .ok (page, 1 + blobNextPageNumSize, nxt)
    match pageRes with
    | .error e => .error e
    | .ok (page, pos, nxt) =>
      let pageCapacity := page.data.length - pos
      let toCopy := min bytesRemaining pageCapacity
      let out := copyAt out dataOffset ((page.data.drop pos).take toCopy)
      getBlobLoop st startPage cnt (pageIdx + 1) nxt (dataOffset + toCopy)
        (bytesRemaining - toCopy) out

/-- `GetBlob`: header from the first page (page count, byte length, next
pointer), then walk the chain collecting the payload. -/
def GetBlob (st : St) (startPageNum : Nat) : Except GoErr Blob :=
  match Tx.getPage st startPageNum with
  | .error e => .error e
  | .ok startPage =>
    match readULE 4 startPage.data blobFirstPageTotalPagesOffset,
        readULE 4 startPage.data blobFirstPageDataSizeOffset,
        readULE 8 startPage.data blobFirstPageNextPageOffset with
    | some pageCount, some dataLen, some nextPageNum =>
      match getBlobLoop st startPage pageCount 0 nextPageNum 0 dataLen
          (List.replicate dataLen 0) with
      | .error e => .error e
      | .ok data =>
        .ok { startPageNum := startPageNum, pageCount := pageCount, size := dataLen,
              data := data }
    | _, _, _ => .error .panic

/-- The chain-walking loop of `DeleteBlob`, collecting page numbers; note the
source fetches the next page even on the final iteration. -/
def deleteBlobLoop (st : St) : Nat → Page → List Nat → Except GoErr (List Nat) :=
  fun cnt page acc =>
    match cnt with
    | 0 => .ok acc
    | cnt + 1 =>
      let acc := acc ++ [page.pageNumber]
      let nextRes : Option Nat :=
        if acc.length = 1 then readULE 8 page.data blobFirstPageNextPageOffset
        else readULE 8 page.data blobExtraPageNextPageOffset
      match nextRes with
      | none => .error .panic
      | some nextPageNum =>
        match Tx.getPage st nextPageNum with
        | .error e => .error e
        | .ok page' => deleteBlobLoop st cnt page' acc

/-- `DeleteBlob`: collect every chain page and mark it for deletion; the byte
length is read at offset `blobDataSizeBytes` (= 4), i.e. at the size constant
rather than at `blobFirstPageDataSizeOffset` (= 5) where `Save` wrote it. -/
def DeleteBlob (st : St) (startPageNum : Nat) : Except GoErr (Nat × St) :=
  match Tx.getPage st startPageNum with
  | .error e => .error e
  | .ok page =>
    match readULE 4 page.data 1, readULE 4 page.data blobDataSizeBytes with
    | some pageCount, some dataLen =>
      match deleteBlobLoop st pageCount page [] with
      | .error e => .error e
      | .ok pages => .ok (dataLen, pages.foldl Tx.deletePage st)
    | _, _ => .error .panic

/-- `Item.setValue`: oversize values go to a blob chain and the in-item value
becomes `[tag=1, first-page u64]`; otherwise the net effect of the source's
append-then-overlapping-self-copy is prepending the inline tag byte. -/
def Item.setValue (item : Item) (st : St) : Except GoErr (Item × St) :=
  if item.value.length > MaxValueSize then
    match NewBlob item.value with
    | .error e => .error e
    | .ok blob =>
      match blob.save st with
      | .error e => .error e
      | .ok (pageNum, st) =>
        .ok ({ item with value := ValueBlob :: uleBytes 8 pageNum }, st)
  else
    .ok ({ item with value := ValueSimple :: item.value }, st)

/-- `Item.getValue`: strip the inline tag, or follow the blob pointer. -/
def Item.getValue (item : Item) (st : St) : Except GoErr Bytes :=
  match item.value.head? with
  | none => .error .panic
  | some tag =>
    if tag = ValueSimple then .ok item.value.tail
    else if tag = ValueBlob then
      match readULE 8 item.value 1 with
      | none => .error .panic
      | some pageNum =>
        match GetBlob st pageNum with
        | .error e => .error e
        | .ok blob => .ok blob.data
    else .error .unknownItemType

/-- `Item.deleteValue`: release the blob chain when the value is one,
returning the length `DeleteBlob` reports; else the in-item value length. -/
def Item.deleteValue (item : Item) (st : St) : Except GoErr (Nat × Bool × St) :=
  match item.value.head? with
  | none => .error .panic
  | some tag =>
    if tag = ValueBlob then
      match readULE 8 item.value 1 with
      | none => .error .panic
      | some pageNum =>
        match DeleteBlob st pageNum with
        | .error e => .error e
        | .ok (dataLen, st) => .ok (dataLen, true, st)
    else .ok (item.value.length, false, st)

/-- `BNode.insertItemAt`: append when at or past the end, else shift right. -/
def BNode.insertItemAt (node : BNode) (newItem : Item) (insertIndex : Nat) : BNode :=
  if insertIndex ≥ node.items.length then { node with items := node.items ++ [newItem] }
  else
    { node with items :=
        node.items.take insertIndex ++ [newItem] ++ node.items.drop insertIndex }

/-- `BNode.removeItemAtLeaf`: shift left over the removed index, then drop the
trailing duplicate (for an in-range index this erases the item at `index`). -/
def BNode.removeItemAtLeaf (node : BNode) (index : Nat) : BNode :=
  if index < node.items.length then
    { node with items := node.items.take index ++ node.items.drop (index + 1) }
  else { node with items := node.items.dropLast }

/-- `traverseBTree`: binary-search descent recording the child index taken at
each internal node; a `getNode` failure is swallowed into a not-found result,
as in the source. -/
def traverseBTree (st : St) (key : Bytes) (exact : Bool) :
    Nat → BNode → List Nat → Except GoErr (Int × Option BNode × List Nat × Bool)
  | 0, _, _ => .error .modelFuelOut
  | fuel + 1, node, ancestorsIndexes =>
    let (pos, isFound) := node.findKeyPosition key
    if isFound then .ok ((pos : Int), some node, ancestorsIndexes, true)
    else if node.isLeaf then
      if exact then .ok (-1, none, ancestorsIndexes, false)
      else .ok ((pos : Int), some node, ancestorsIndexes, true)
    else
      let ancestorsIndexes := ancestorsIndexes ++ [pos]
      match node.childNodes.get? pos with
      | none => .error .panic
      | some childPage =>
        match Tx.getNode st childPage with
        | .error _ => .ok (-1, none, ancestorsIndexes, false)
        | .ok child => traverseBTree st key exact fuel child ancestorsIndexes

/-- `BNode.Find`. -/
def BNode.find (st : St) (fuel : Nat) (node : BNode) (key : Bytes) (exact : Bool) :
    Except GoErr (Int × Option BNode × List Nat × Bool) :=
  traverseBTree st key exact fuel node [0]

/-- The re-descent loop of `Bucket.getNodes`; the source discards `getNode`
errors and would nil-panic downstream, hence `panic`. -/
def getNodesLoop (st : St) : List Nat → BNode → List BNode → Except GoErr (List BNode)
  | [], _, acc => .ok acc
  | idx :: rest, child, acc =>
    match child.childNodes.get? idx with
    | none => .error .panic
    | some page =>
      match Tx.getNode st page with
      | .error _ => .error .panic
      | .ok next => getNodesLoop st rest next (acc ++ [next])

/-- `Bucket.getNodes`: resolve a breadcrumb index path to the node list from
the bucket root down. -/
def Bucket.getNodes (st : St) (bucket : Bucket) (indexes : List Nat) :
    Except GoErr (List BNode) :=
  match Tx.getNode st bucket.root with
  | .error e => .error e
  | .ok root => getNodesLoop st indexes.tail root [root]

/-- `splitChild`: split the over-populated `fullNode` under parent `node` at
`getSplitIndex`, promoting the middle item and linking the new right node at
`fullNodeIndex + 1` (the source's append-of-overlapping-slices plus overwrite
amounts to an insertion there). All mutated nodes are flushed. -/
def splitChild (st : St) (node fullNode : BNode) (fullNodeIndex : Nat) :
    Except GoErr St :=
  let splitIndexI := getSplitIndex fullNode st.dal.minThreshold
  if splitIndexI < 0 then .error .panic
  else
    let splitIndex := splitIndexI.toNat
    match fullNode.items.get? splitIndex with
    | none => .error .panic
    | some middleItem =>
      let newRes : Except GoErr (BNode × BNode × St) :=
        if fullNode.isLeaf then
          match Tx.newNode st (fullNode.items.drop (splitIndex + 1)) [] with
          | .error e => .error e
          | .ok (newNode, st) =>
            let st := Tx.setNode st newNode
            .ok (newNode, { fullNode with items := fullNode.items.take splitIndex }, st)
        else
          match Tx.newNode st (fullNode.items.drop (splitIndex + 1))
              (fullNode.childNodes.drop (splitIndex + 1)) with
          | .error e => .error e
          | .ok (newNode, st) =>
            let st := Tx.setNode st newNode
            .ok (newNode,
              { fullNode with items := fullNode.items.take splitIndex,
                              childNodes := fullNode.childNodes.take (splitIndex + 1) }, st)
      match newRes with
      | .error e => .error e
      | .ok (newNode, fullNode, st) =>
        let node := node.insertItemAt middleItem fullNodeIndex
        let node :=
          if node.childNodes.length = fullNodeIndex + 1 then
            { node with childNodes := node.childNodes ++ [newNode.pageNum] }
          else
            let cs := node.childNodes.take (fullNodeIndex + 1) ++
              node.childNodes.drop fullNodeIndex
            { node with childNodes := cs.set (fullNodeIndex + 1) newNode.pageNum }
        .ok (Tx.writeNodes st [node, fullNode])

/-- The predecessor descent of `removeItemFromInternal`: follow the rightmost
child to a leaf, recording each traversed child index. -/
def predecessorDescent (st : St) :
    Nat → BNode → List Nat → Except GoErr (BNode × List Nat)
  | 0, _, _ => .error .modelFuelOut
  | fuel + 1, node, affected =>
    if node.isLeaf then .ok (node, affected)
    else
      let traversingIndex := node.childNodes.length - 1
      match node.childNodes.get? traversingIndex with
      | none => .error .panic
      | some page =>
        match Tx.getNode st page with
        | .error e => .error e
        | .ok child => predecessorDescent st fuel child (affected ++ [traversingIndex])

/-- `BNode.removeItemFromInternal`: replace the item at `index` with its
in-order predecessor (the rightmost leaf item of the left subtree), remove the
predecessor from its leaf, and return the traversed child indices. -/
def BNode.removeItemFromInternal (st : St) (fuel : Nat) (node : BNode) (index : Nat) :
    Except GoErr (List Nat × St) :=
  match node.childNodes.get? index with
  | none => .error .panic
  | some page =>
    match Tx.getNode st page with
    | .error e => .error e
    | .ok pred0 =>
      match predecessorDescent st fuel pred0 [index] with
      | .error e => .error e
      | .ok (predecessorNode, affectedNodes) =>
        match predecessorNode.items.getLast? with
        | none => .error .panic
        | some lastItem =>
          if index < node.items.length then
            let node := { node with items := node.items.set index lastItem }
            let predecessorNode :=
              { predecessorNode with items := predecessorNode.items.dropLast }
            .ok (affectedNodes, Tx.writeNodes st [node, predecessorNode])
          else .error .panic

/-- `isLastItem`. -/
def isLastItem (index : Nat) (parentNode : BNode) : Bool :=
  (index : Int) ≥ (parentNode.items.length : Int) - 1

/-- `isFirstItem`. -/
def isFirstItem (index : Nat) : Bool := index == 0

/-- `rotateRight`: move the left sibling's last item up to the parent and the
parent's item down to the front of the right node (with the matching child
when the nodes are internal). -/
def rotateRight (leftNode parentNode rightNode : BNode) (rightNodeIndex : Nat) :
    Except GoErr (BNode × BNode × BNode) :=
  match leftNode.items.getLast? with
  | none => .error .panic
  | some movedItem =>
    let leftNode := { leftNode with items := leftNode.items.dropLast }
    let parentItemIndex := if isFirstItem rightNodeIndex then 0 else rightNodeIndex - 1
    match parentNode.items.get? parentItemIndex with
    | none => .error .panic
    | some parentSwapItem =>
      let parentNode :=
        { parentNode with items := parentNode.items.set parentItemIndex movedItem }
      let rightNode := { rightNode with items := parentSwapItem :: rightNode.items }
      if leftNode.isLeaf then .ok (leftNode, parentNode, rightNode)
      else
        match leftNode.childNodes.getLast? with
        | none => .error .panic
        | some childToMove =>
          .ok ({ leftNode with childNodes := leftNode.childNodes.dropLast },
               parentNode,
               { rightNode with childNodes := childToMove :: rightNode.childNodes })

/-- `rotateLeft`: symmetric to `rotateRight`. -/
def rotateLeft (leftNode parentNode rightNode : BNode) (rightNodeIndex : Nat) :
    Except GoErr (BNode × BNode × BNode) :=
  match rightNode.items.head? with
  | none => .error .panic
  | some movedItem =>
    let rightNode := { rightNode with items := rightNode.items.tail }
    let parentItemIndex :=
      if isLastItem rightNodeIndex parentNode then parentNode.items.length - 1
      else rightNodeIndex
    match parentNode.items.get? parentItemIndex with
    | none => .error .panic
    | some parentSwapItem =>
      let parentNode :=
        { parentNode with items := parentNode.items.set parentItemIndex movedItem }
      let leftNode := { leftNode with items := leftNode.items ++ [parentSwapItem] }
      if rightNode.isLeaf then .ok (leftNode, parentNode, rightNode)
      else
        match rightNode.childNodes.head? with
        | none => .error .panic
        | some childToMove =>
          .ok ({ leftNode with childNodes := leftNode.childNodes ++ [childToMove] },
               parentNode,
               { rightNode with childNodes := rightNode.childNodes.tail })

/-- `BNode.merge`: merge `rightNode` (child `rightNodeIndex` of the receiver)
into its left sibling: separator and right items move left, the separator and
right-child pointer leave the parent, children are concatenated, and the right
node's page is marked for deletion. Oversize merges are a hard error. -/
def BNode.merge (st : St) (node rightNode : BNode) (rightNodeIndex : Nat) :
    Except GoErr St :=
  if rightNodeIndex = 0 then .error .panic
  else
    match node.childNodes.get? (rightNodeIndex - 1) with
    | none => .error .panic
    | some leftPage =>
      match Tx.getNode st leftPage with
      | .error e => .error e
      | .ok leftNode =>
        match node.items.get? (rightNodeIndex - 1) with
        | none => .error .panic
        | some separatorItem =>
          let combinedSize := leftNode.size + rightNode.size + BNode.elemSize separatorItem
          if combinedSize + NodeHeaderSize > BTreePageSize then .error .mergeOverflow
          else
            let leftNode := { leftNode with items := leftNode.items ++ [separatorItem] }
            let node :=
              { node with items := node.items.take (rightNodeIndex - 1) ++
                  node.items.drop rightNodeIndex }
            let leftNode := { leftNode with items := leftNode.items ++ rightNode.items }
            let node :=
              { node with childNodes := node.childNodes.take rightNodeIndex ++
                  node.childNodes.drop (rightNodeIndex + 1) }
            let leftNode :=
              if leftNode.isLeaf then leftNode
              else { leftNode with childNodes := leftNode.childNodes ++ rightNode.childNodes }
            let st := Tx.writeNodes st [leftNode, node]
            .ok (Tx.deletePage st rightNode.pageNum)

/-- `BNode.rebalanceRemove`: right-rotate from a left sibling with an extra
element, else left-rotate from such a right sibling, else merge (the leftmost
child merges its right sibling into itself). -/
def BNode.rebalanceRemove (st : St) (node unbalancedNode : BNode)
    (nodeIndexInParent : Nat) : Except GoErr St :=
  let parentNode := node
  let minThreshold := st.dal.minThreshold
  let rightRotateRes : Except GoErr (Option St) :=
    if nodeIndexInParent ≠ 0 then
      match parentNode.childNodes.get? (nodeIndexInParent - 1) with
      | none => .error .panic
      | some leftPage =>
        match Tx.getNode st leftPage with
        | .error e => .error e
        | .ok leftNode =>
          if leftNode.hasExtraElement minThreshold then
            match rotateRight leftNode parentNode unbalancedNode nodeIndexInParent with
            | .error e => .error e
            | .ok (l, p, r) => .ok (some (Tx.writeNodes st [l, p, r]))
          else .ok none
    else .ok none
  match rightRotateRes with
  | .error e => .error e
  | .ok (some st) => .ok st
  | .ok none =>
    let leftRotateRes : Except GoErr (Option St) :=
      if nodeIndexInParent ≠ parentNode.childNodes.length - 1 then
        match parentNode.childNodes.get? (nodeIndexInParent + 1) with
        | none => .error .panic
        | some rightPage =>
          match Tx.getNode st rightPage with
          | .error e => .error e
          | .ok rightNode =>
            if rightNode.hasExtraElement minThreshold then
              match rotateLeft unbalancedNode parentNode rightNode nodeIndexInParent with
              | .error e => .error e
              | .ok (l, p, r) => .ok (some (Tx.writeNodes st [l, p, r]))
            else .ok none
      else .ok none
    match leftRotateRes with
    | .error e => .error e
    | .ok (some st) => .ok st
    | .ok none =>
      if nodeIndexInParent = 0 then
        match node.childNodes.get? (nodeIndexInParent + 1) with
        | none => .error .panic
        | some rightPage =>
          match Tx.getNode st rightPage with
          | .error e => .error e
          | .ok rightNode => parentNode.merge st rightNode (nodeIndexInParent + 1)
      else parentNode.merge st unbalancedNode nodeIndexInParent

/-- `Bucket.Get`: descend for an exact match; the outer `Option` is the
`found` flag, the inner one the (possibly nil) value, since the source
discards `getValue`'s error and can return `(nil, true)`. -/
def Bucket.Get (st : St) (fuel : Nat) (bucket : Bucket) (key : Bytes) :
    Except GoErr (Option (Option Bytes)) :=
  if ¬ bucket.txBound then .ok none
  else
    match Tx.getNode st bucket.root with
    | .error _ => .ok none
    | .ok node =>
      match node.find st fuel key true with
      | .error e => .error e
      | .ok (pos, foundNode, _, found) =>
        if ¬ found then .ok none
        else
          match foundNode with
          | none => .error .panic
          | some foundNode =>
            match foundNode.items.get? pos.toNat with
            | none => .error .panic
            | some value =>
              match value.getValue st with
              | .error _ => .ok (some none)
              | .ok v => .ok (some (some v))

/-- The bottom-up split pass of `Bucket.Put`, from breadcrumb level `i` down
to 1 (the source iterates `i+1` from `len-1` down to 1); nodes are re-fetched
by page number at each step, which sees exactly the mutations the source's
shared pointers see, since every mutation is flushed before the next step. -/
def putRebalanceFrom (pathPages breadcrumbs : List Nat) :
    Nat → St → Except GoErr St
  | 0, st => .ok st
  | i + 1, st =>
    match pathPages.get? i, pathPages.get? (i + 1), breadcrumbs.get? (i + 1) with
    | some parentPage, some nodePage, some nodeIndex =>
      match Tx.getNode st parentPage, Tx.getNode st nodePage with
      | .ok parentNode, .ok node =>
        if node.isOverPopulated st.dal.maxThreshold then
          match splitChild st parentNode node nodeIndex with
          | .error e => .error e
          | .ok st => putRebalanceFrom pathPages breadcrumbs i st
        else putRebalanceFrom pathPages breadcrumbs i st
      | _, _ => .error .panic
    | _, _, _ => .error .panic

/-- `Bucket.Put`: validate sizes, externalize the value (`setValue`), then
either create the root (the source then overwrites its page number with 2),
or descend, overwrite or insert, split over-populated nodes bottom-up, split
an over-populated root under a fresh root node, and finally update the bucket
statistics unless the key already existed. The `fuel` bounds the descent depth
and the bucket-record recursion through `createOrUpdateBucket`. -/
def Bucket.Put (fuel0 : Nat) (bucket : Bucket) (key value : Bytes) (st : St) :
    Except GoErr (Bucket × St) :=
  match fuel0 with
  | 0 => .error .modelFuelOut
  | fuel + 1 =>
    if ¬ bucket.txBound then .error .txClosed
    else if key.length ≥ MaxKeySize then .error .keyTooLarge
    else if value.length ≥ OneGigabyte then .error .valueTooLarge
    else
      match Item.setValue ⟨key, value⟩ st with
      | .error e => .error e
      | .ok (item, st) =>
        if bucket.root = 0 then
          match Tx.newNode st [item] [] with
          | .error e => .error e
          | .ok (root, st) =>
            let root := { root with pageNum := 2 }
            let st := Tx.setNode st root
            let bucket := { bucket with root := root.pageNum }
            .ok (bucket, st.syncBucket bucket)
        else
          match Tx.getNode st bucket.root with
          | .error e => .error e
          | .ok root =>
            match root.find st (fuel + 1) item.key false with
            | .error e => .error e
            | .ok (insertionIndexI, nodeToInsertIn, breadcrumbs, found) =>
              if ¬ found then .error .nodeNotFound
              else
                match nodeToInsertIn with
                | none => .error .panic
                | some nodeToInsertIn =>
                  let insertionIndex := insertionIndexI.toNat
                  let keyExists :=
                    decide (nodeToInsertIn.items ≠ []) &&
                    decide (insertionIndex < nodeToInsertIn.items.length) &&
                    (match nodeToInsertIn.items.get? insertionIndex with
                     | some it => bytesCompare it.key key == .eq
                     | none => false)
                  let nodeToInsertIn :=
                    if keyExists then
                      { nodeToInsertIn with
                        items := nodeToInsertIn.items.set insertionIndex item }
                    else nodeToInsertIn.insertItemAt item insertionIndex
                  let st := Tx.setNode st nodeToInsertIn
                  match Bucket.getNodes st bucket breadcrumbs with
                  | .error e => .error e
                  | .ok nodesAlongPath =>
                    let pathPages := nodesAlongPath.map BNode.pageNum
                    match putRebalanceFrom pathPages breadcrumbs (pathPages.length - 1) st with
                    | .error e => .error e
                    | .ok st =>
                      match pathPages.head? with
                      | none => .error .panic
                      | some rootPage =>
                        match Tx.getNode st rootPage with
                        | .error _ => .error .panic
                        | .ok rootNode =>
                          let afterSplit : Except GoErr (Bucket × St) :=
                            if rootNode.isOverPopulated st.dal.maxThreshold then
                              match Tx.newNode st [] [rootNode.pageNum] with
                              | .error e => .error e
                              | .ok (newRoot0, st) =>
                                match splitChild st newRoot0 rootNode 0 with
                                | .error e => .error e
                                | .ok st =>
                                  match Tx.getNode st newRoot0.pageNum with
                                  | .error _ => .error .panic
                                  | .ok newRoot =>
                                    let st := Tx.setNode st newRoot
                                    let bucket := { bucket with root := newRoot.pageNum }
                                    if st.dal.meta.root = rootNode.pageNum then
                                      let dal := { st.dal with
                                        meta := { st.dal.meta with root := newRoot.pageNum } }
                                      .ok (bucket, { st with dal := dal })
                                    else
                                      let bucketR := { bucket with txBound := true }
                                      let dataR := bucketR.serialize
                                      let rootBucket := Tx.getRootBucket st
                                      match Bucket.Put fuel rootBucket bucketR.name
                                          dataR.value st with
                                      | .error e => .error e
                                      | .ok (_, st) => .ok (bucket, st)
                            else .ok (bucket, st)
                          match afterSplit with
                          | .error e => .error e
                          | .ok (bucket, st) =>
                            let bucket :=
                              if ¬ keyExists then
                                { bucket with
                                  itemsN := (bucket.itemsN + 1) % 2 ^ 64
                                  bytesInUse :=
                                    (bucket.bytesInUse + key.length + value.length) % 2 ^ 64
                                  blobsN :=
                                    if value.length > MaxValueSize then
                                      (bucket.blobsN + 1) % 2 ^ 64
                                    else bucket.blobsN }
                              else bucket
                            .ok (bucket, st.syncBucket bucket)

/-- `Tx.createOrUpdateBucket`: write the bucket's serialized record under its
name into the root bucket (inlined inside `Bucket.Put`'s root-split branch,
where the source calls it mutually). -/
def Tx.createOrUpdateBucket (fuel : Nat) (st : St) (bucket : Bucket) :
    Except GoErr (Bucket × St) :=
  let bucket := { bucket with txBound := true }
  let data := bucket.serialize
  let rootBucket := Tx.getRootBucket st
  match Bucket.Put fuel rootBucket bucket.name data.value st with
  | .error e => .error e
  | .ok (_, st) => .ok (bucket, st)

/-- The bottom-up rebalance pass of `Bucket.Remove`, from breadcrumb level `i`
down to 1 (same re-fetch convention as `putRebalanceFrom`). -/
def removeRebalanceFrom (pathPages breadcrumbs : List Nat) :
    Nat → St → Except GoErr St
  | 0, st => .ok st
  | i + 1, st =>
    match pathPages.get? i, pathPages.get? (i + 1), breadcrumbs.get? (i + 1) with
    | some parentPage, some nodePage, some nodeIndex =>
      match Tx.getNode st parentPage, Tx.getNode st nodePage with
      | .ok parentNode, .ok node =>
        if node.isUnderPopulated st.dal.minThreshold then
          match parentNode.rebalanceRemove st node nodeIndex with
          | .error e => .error e
          | .ok st => removeRebalanceFrom pathPages breadcrumbs i st
        else removeRebalanceFrom pathPages breadcrumbs i st
      | _, _ => .error .panic
    | _, _, _ => .error .panic

/-- `Bucket.Remove`: find the exact key, release its blob value if any, delete
the item (through the in-order predecessor at an internal node), rebalance
under-populated nodes bottom-up, promote `nodesAlongPath[1]` as the new root
when the root is left empty with children, and update the statistics. -/
def Bucket.Remove (fuel : Nat) (bucket : Bucket) (key : Bytes) (st : St) :
    Except GoErr (Bucket × St) :=
  if ¬ bucket.txBound then .error .txClosed
  else
    match Tx.getNode st bucket.root with
    | .error e => .error e
    | .ok rootNode =>
      match rootNode.find st fuel key true with
      | .error e => .error e
      | .ok (removeItemIndexI, nodeToRemoveFrom, breadcrumbs, found) =>
        if ¬ found then .error .nodeNotFound
        else if removeItemIndexI = -1 then .ok (bucket, st.syncBucket bucket)
        else
          match nodeToRemoveFrom with
          | none => .error .panic
          | some nodeToRemoveFrom =>
            let removeItemIndex := removeItemIndexI.toNat
            match nodeToRemoveFrom.items.get? removeItemIndex with
            | none => .error .panic
            | some item =>
              match item.deleteValue st with
              | .error e => .error e
              | .ok (valueLen, wasBlob, st) =>
                let afterDelete : Except GoErr (List Nat × St) :=
                  if nodeToRemoveFrom.isLeaf then
                    .ok (breadcrumbs,
                      Tx.setNode st (nodeToRemoveFrom.removeItemAtLeaf removeItemIndex))
                  else
                    match nodeToRemoveFrom.removeItemFromInternal st fuel removeItemIndex with
                    | .error e => .error e
                    | .ok (affectedNodes, st) =>
                      .ok (breadcrumbs ++ affectedNodes,
                        Tx.setNode st
                          (match alookup st.tx.dirtyNodes nodeToRemoveFrom.pageNum with
                           | some n => n
                           | none => nodeToRemoveFrom))
                match afterDelete with
                | .error e => .error e
                | .ok (breadcrumbs, st) =>
                  match Bucket.getNodes st bucket breadcrumbs with
                  | .error e => .error e
                  | .ok nodesAlongPath =>
                    let pathPages := nodesAlongPath.map BNode.pageNum
                    match removeRebalanceFrom pathPages breadcrumbs
                        (pathPages.length - 1) st with
                    | .error e => .error e
                    | .ok st =>
                      match pathPages.head? with
                      | none => .error .panic
                      | some rootPage =>
                        match Tx.getNode st rootPage with
                        | .error _ => .error .panic
                        | .ok rootNode =>
                          let bucketRes : Except GoErr Bucket :=
                            if rootNode.items.length = 0 ∧
                                rootNode.childNodes.length > 0 then
                              match pathPages.get? 1 with
                              | none => .error .panic
                              | some p => .ok { bucket with root := p }
                            else .ok bucket
                          match bucketRes with
                          | .error e => .error e
                          | .ok bucket =>
                            let bucket :=
                              { bucket with
                                itemsN := (bucket.itemsN + 2 ^ 64 - 1) % 2 ^ 64
                                bytesInUse := (bucket.bytesInUse + 2 ^ 64 -
                                  (key.length + valueLen) % 2 ^ 64) % 2 ^ 64
                                blobsN :=
                                  if wasBlob then (bucket.blobsN + 2 ^ 64 - 1) % 2 ^ 64
                                  else bucket.blobsN }
                            .ok (bucket, st.syncBucket bucket)

/-- `Bucket.NextSequence`: a write-transaction-only counter increment. -/
def Bucket.NextSequence (bucket : Bucket) (st : St) :
    Except GoErr (Nat × Bucket × St) :=
  if ¬ bucket.txBound then .error .txClosed
  else if ¬ st.tx.write then .error .writeInRxTransaction
  else
    let bucket := { bucket with counter := (bucket.counter + 1) % 2 ^ 64 }
    .ok (bucket.counter, bucket, st.syncBucket bucket)

/-- `Bucket.Sequence`. -/
def Bucket.Sequence (bucket : Bucket) : Nat := bucket.counter

/-- `Tx.GetBucket`: look the record up in the root bucket, deserialize it, and
(in a write transaction) cache it among the dirty buckets. -/
def Tx.GetBucket (fuel : Nat) (st : St) (name : Bytes) :
    Except GoErr (Bucket × St) :=
  let rootBucket := Tx.getRootBucket st
  match Bucket.Get st fuel rootBucket name with
  | .error e => .error e
  | .ok none => .error .bucketNotFound
  | .ok (some none) => .error .bucketNotFound
  | .ok (some (some value)) =>
    match (newBucket []).deserializeFields value with
    | .error e => .error e
    | .ok bucket =>
      let bucket := { bucket with txBound := true, name := name }
      if st.tx.write then
        .ok (bucket,
          { st with tx := { st.tx with
              dirtyBuckets := bupsert st.tx.dirtyBuckets name bucket } })
      else .ok (bucket, st)

/-- `Tx.CreateBucket`: write-only; a fresh empty node becomes the bucket root
(written straight through the DAL), and the record is stored in the root
bucket. -/
def Tx.CreateBucket (fuel : Nat) (st : St) (name : Bytes) :
    Except GoErr (Bucket × St) :=
  if ¬ st.tx.write then .error .writeInRxTransaction
  else
    match Tx.GetBucket fuel st name with
    | .ok _ => .error .bucketExists
    | .error .bucketNotFound =>
      match st.dal.setNode NewBNode with
      | .error e => .error e
      | .ok (page, dal) =>
        let st := { st with dal := dal }
        let bucket := { newBucket [] with name := name, root := page.pageNumber }
        let st := { st with tx := { st.tx with
          dirtyBuckets := bupsert st.tx.dirtyBuckets name bucket } }
        Tx.createOrUpdateBucket fuel st bucket
    | .error e => .error e

/-- `Tx.CreateBucketIfNotExists`. -/
def Tx.CreateBucketIfNotExists (fuel : Nat) (st : St) (name : Bytes) :
    Except GoErr (Bucket × St) :=
  if ¬ st.tx.write then .error .writeInRxTransaction
  else
    match Tx.CreateBucket fuel st name with
    | .error .bucketExists => Tx.GetBucket fuel st name
    | r => r

/-- `Tx.DeleteBucket`: write-only; remove the record from the root bucket. -/
def Tx.DeleteBucket (fuel : Nat) (st : St) (name : Bytes) : Except GoErr St :=
  if ¬ st.tx.write then .error .writeInRxTransaction
  else
    let rootBucket := Tx.getRootBucket st
    match Bucket.Remove fuel rootBucket name st with
    | .error e => .error e
    | .ok (_, st) => .ok st

/-- `Tx.Rollback`: the write path discards dirty nodes and pages-to-delete and
returns every page allocated during the transaction to the freelist; the
read path only releases the shared lock (outside the model). -/
def Tx.Rollback (st : St) : St :=
  if ¬ st.tx.write then st
  else
    let tx := { st.tx with dirtyNodes := [], pagesToDelete := [] }
    let freelist := st.tx.allocatedPageNums.foldl Freelist.ReleasePage st.dal.freelist
    { st with tx := { tx with allocatedPageNums := [] }
              dal := { st.dal with freelist := freelist } }

/-- The entry-writing loop of `WriteFreelist` (`writeEntriesToPage`): up to
`maxEntries` entries starting at `startIdx`, eight bytes each. -/
def writeEntriesToPage (data : Bytes) (startPos : Nat) (entries : List Nat)
    (startIdx : Nat) : Nat → Option (Bytes × Nat)
  | 0 => some (data, 0)
  | maxEntries + 1 =>
    if startIdx < entries.length then
      match putULE 8 data startPos (entries.getD startIdx 0) with
      | none => none
      | some data =>
        match writeEntriesToPage data (startPos + UInt64Size) entries (startIdx + 1)
            maxEntries with
        | none => none
        | some (data, written) => some (data, written + 1)
    else some (data, 0)

/-- `manageFreelistPageAllocation`: grow the freelist's own page chain through
`AllocatePage`, or release the excess through `ReleasePage`. -/
def manageFreelistPageAllocation (dal : Dal) (pagesNeeded : Nat) : Except GoErr Dal :=
  let oldPageCount := dal.freelist.freelistPages.length
  if pagesNeeded > oldPageCount then
    let rec grow (dal : Dal) : Nat → Except GoErr Dal
      | 0 => .ok dal
      | n + 1 =>
        match dal.AllocatePage with
        | .error e => .error e
        | .ok (page, dal) =>
          let dal := { dal with freelist := { dal.freelist with
            freelistPages := dal.freelist.freelistPages ++ [page.pageNumber] } }
          grow dal n
    grow dal (pagesNeeded - oldPageCount)
  else if pagesNeeded < oldPageCount then
    let excess := dal.freelist.freelistPages.drop pagesNeeded
    let rec shrink (dal : Dal) : List Nat → Except GoErr Dal
      | [] => .ok dal
      | p :: rest =>
        match dal.ReleasePage p with
        | .error e => .error e
        | .ok dal => shrink dal rest
    match shrink dal excess with
    | .error e => .error e
    | .ok dal =>
      .ok { dal with freelist := { dal.freelist with
        freelistPages := dal.freelist.freelistPages.take pagesNeeded } }
  else .ok dal

/-- The overflow-page loop of `WriteFreelist`, threading the index of the
next entry to write exactly as the source accumulates `entriesIdx`. -/
def writeFreelistExtra (pagesNeeded : Nat) : Nat → Nat → Nat → Dal → Except GoErr Dal
  | _, _, 0, dal => .ok dal
  | i, entriesIdx, remaining + 1, dal =>
    if i < pagesNeeded then
      match dal.freelist.freelistPages.get? i with
      | none => .error .couldNotReadFreelist
      | some pageNum =>
        match dal.GetPage pageNum with
        | .error _ => .error .couldNotReadFreelist
        | .ok page =>
          let nextPageNum :=
            if i < pagesNeeded - 1 then dal.freelist.freelistPages.getD (i + 1) 0 else 0
          match putULE 1 page.data freelistPageTypeOffset FreeListPage with
          | none => .error .panic
          | some data =>
            match putULE 8 data freelistNextPageOffset nextPageNum with
            | none => .error .panic
            | some data =>
              match writeEntriesToPage data freelistExtraPageEntriesOffset
                  dal.freelist.releasedPages entriesIdx dal.freelist.entriesPerExtraPage with
              | none => .error .panic
              | some (data, written) =>
                match dal.SetPage { page with data := data } with
                | .error e => .error e
                | .ok dal =>
                  writeFreelistExtra pagesNeeded (i + 1) (entriesIdx + written) remaining dal
    else .ok dal

/-- `WriteFreelist`: a no-op when clean; otherwise size the page chain, write
the first page (header plus leading entries) and then each overflow page, and
clear the dirty flag. -/
def WriteFreelist (dal : Dal) : Except GoErr Dal :=
  if ¬ dal.freelist.dirty then .ok dal
  else
    let pagesNeeded := calculatePagesNeeded dal.freelist.releasedPages.length
      dal.freelist.entriesPerFirstPage dal.freelist.entriesPerExtraPage
    let fl := dal.freelist
    let fl :=
      if fl.freelistPages.isEmpty then
        { fl with freelistPages := [dal.meta.freelistPageNumber] }
      else if fl.freelistPages.headD 0 ≠ dal.meta.freelistPageNumber then
        { fl with freelistPages := fl.freelistPages.set 0 dal.meta.freelistPageNumber }
      else fl
    let dal := { dal with freelist := fl }
    match manageFreelistPageAllocation dal pagesNeeded with
    | .error e => .error e
    | .ok dal =>
      match dal.GetPage dal.meta.freelistPageNumber with
      | .error _ => .error .couldNotReadFreelist
      | .ok firstPage =>
        let nextPageNum :=
          if pagesNeeded > 1 then dal.freelist.freelistPages.getD 1 0 else 0
        match putULE 1 firstPage.data freelistPageTypeOffset FreeListPage with
        | none => .error .panic
        | some data =>
          match putULE 8 data freelistNextPageOffset nextPageNum with
          | none => .error .panic
          | some data =>
            match putULE 8 data freelistCurrentPageOffset dal.freelist.currentPage with
            | none => .error .panic
            | some data =>
              match putULE 8 data freelistMaxPagesOffset dal.freelist.maxPages with
              | none => .error .panic
              | some data =>
                match putULE 8 data freelistNumPagesOffset
                    dal.freelist.releasedPages.length with
                | none => .error .panic
                | some data =>
                  match writeEntriesToPage data freelistFirstPageEntriesOffset
                      dal.freelist.releasedPages 0 dal.freelist.entriesPerFirstPage with
                  | none => .error .panic
                  | some (data, entriesWritten) =>
                    match dal.SetPage { firstPage with data := data } with
                    | .error e => .error e
                    | .ok dal =>
                      match writeFreelistExtra pagesNeeded 1 entriesWritten
                          (pagesNeeded - 1) dal with
                      | .error e => .error e
                      | .ok dal =>
                        .ok { dal with freelist := { dal.freelist with dirty := false } }

/-- The entry-reading loop of `ReadFreelist` (`readEntriesFromPage`): read up
to `maxEntries` entries while fewer than `remaining` have been collected,
skipping a read that would run past the page; then the next-page link. -/
def readEntriesFromPage (page : Bytes) (startPos : Nat) (remaining : Nat) :
    Nat → List Nat → Option (List Nat × Nat)
  | 0, entries =>
    match readULE 8 page 1 with
    | none => none
    | some nxt => some (entries, nxt)
  | maxEntries + 1, entries =>
    if entries.length < remaining then
      let pos := startPos
      if pos + UInt64Size ≤ page.length then
        match readULE 8 page pos with
        | none => none
        | some e => readEntriesFromPage page (pos + UInt64Size) remaining maxEntries
            (entries ++ [e])
      else readEntriesFromPage page pos remaining maxEntries entries
    else
      match readULE 8 page 1 with
      | none => none
      | some nxt => some (entries, nxt)

/-- The overflow-chain loop of `ReadFreelist`. -/
def readFreelistChain (dal : Dal) (numPages : Nat) :
    Nat → Nat → List Nat → List Nat → Except GoErr (List Nat × List Nat)
  | 0, _, _, _ => .error .modelFuelOut
  | fuel + 1, nextPageNum, entries, flPages =>
    if nextPageNum ≠ 0 ∧ entries.length < numPages then
      let flPages := flPages ++ [nextPageNum]
      match dal.GetPage nextPageNum with
      | .error _ => .error .couldNotReadFreelist
      | .ok page =>
        match readEntriesFromPage page.data freelistExtraPageEntriesOffset numPages
            (dal.freelist.entriesPerExtraPage) entries with
        | none => .error .panic
        | some (entries, nxt) => readFreelistChain dal numPages fuel nxt entries flPages
    else .ok (entries, flPages)

/-- `ReadFreelist`: header fields from the first freelist page, then entries
across the chain until the link is zero or `numEntries` entries are read. -/
def ReadFreelist (dal : Dal) (fuel : Nat) : Except GoErr Freelist :=
  let freelist := NewFreelist dal.meta.pageSize 0
  match dal.GetPage dal.meta.freelistPageNumber with
  | .error _ => .error .couldNotReadFreelist
  | .ok firstPage =>
    match readULE 8 firstPage.data freelistCurrentPageOffset,
        readULE 8 firstPage.data freelistMaxPagesOffset,
        readULE 8 firstPage.data freelistNumPagesOffset with
    | some currentPage, some maxPages, some numPages =>
      match readEntriesFromPage firstPage.data freelistFirstPageEntriesOffset numPages
          freelist.entriesPerFirstPage [] with
      | none => .error .panic
      | some (entries, nextPageNum) =>
        match readFreelistChain dal numPages fuel nextPageNum entries
            [dal.meta.freelistPageNumber] with
        | .error e => .error e
        | .ok (entries, flPages) =>
          .ok { freelist with
                currentPage := currentPage
                maxPages := maxPages
                releasedPages := entries
                freelistPages := flPages }
    | _, _, _ => .error .panic

/-- `WriteMeta`: serialize the meta record over page 0's current bytes. -/
def WriteMeta (dal : Dal) (m : Meta) : Except GoErr Dal :=
  match dal.GetPage 0 with
  | .error _ => .error .couldNotReadMeta
  | .ok page =>
    match m.serialize page.data with
    | .error e => .error e
    | .ok data => dal.SetPage { pageNumber := metaPageNumber, data := data }

/-- `ReadMeta`: deserialize page 0 and check the database name and major
version. -/
def ReadMeta (dal : Dal) : Except GoErr Meta :=
  match dal.GetPage 0 with
  | .error _ => .error .couldNotReadMeta
  | .ok page =>
    match Meta.deserialize page.data with
    | none => .error .panic
    | some m =>
      if m.dbName ≠ dbNameBytes then .error .badDbName
      else if m.dbVersion / 2 ^ 8 ≠ dbVersionMajor then .error .badDbVersion
      else .ok m

/-- The dirty-bucket materialization loop of `Tx.Commit`: each record is put
into the root bucket, whose object is threaded through (its root field tracks
splits, as the shared pointer does in the source). -/
def commitBucketsLoop (fuel : Nat) :
    List (Bytes × Bucket) → Bucket → St → Except GoErr St
  | [], _, st => .ok st
  | (_, bucket) :: rest, root, st =>
    let data := bucket.serialize
    match Bucket.Put fuel root bucket.name data.value st with
    | .error e => .error e
    | .ok (root, st) => commitBucketsLoop fuel rest root st

/-- The dirty-node write-out loop of `Tx.Commit`. -/
def commitNodesLoop : List (Nat × BNode) → Dal → Except GoErr Dal
  | [], dal => .ok dal
  | (_, node) :: rest, dal =>
    match dal.setNode node with
    | .error e => .error e
    | .ok (_, dal) => commitNodesLoop rest dal

/-- The dirty-page write-out loop of `Tx.Commit`. -/
def commitPagesLoop : List (Nat × Page) → Dal → Except GoErr Dal
  | [], dal => .ok dal
  | (_, page) :: rest, dal =>
    match dal.SetPage page with
    | .error e => .error e
    | .ok dal => commitPagesLoop rest dal

/-- `Tx.Commit`: a read transaction just releases its lock. A write
transaction materializes dirty bucket records into the root bucket, writes
every dirty node and dirty page through the DAL, releases the pages marked
for deletion, persists the freelist and the meta page, and clears its dirty
sets. -/
def Tx.Commit (fuel : Nat) (st : St) : Except GoErr St :=
  if ¬ st.tx.write then .ok st
  else
    let root := Tx.getRootBucket st
    match commitBucketsLoop fuel st.tx.dirtyBuckets root st with
    | .error e => .error e
    | .ok st =>
      match commitNodesLoop st.tx.dirtyNodes st.dal with
      | .error e => .error e
      | .ok dal =>
        match commitPagesLoop st.tx.dirtyPages dal with
        | .error e => .error e
        | .ok dal =>
          let freelist := st.tx.pagesToDelete.foldl Freelist.ReleasePage dal.freelist
          let dal := { dal with freelist := freelist }
          match WriteFreelist dal with
          | .error e => .error e
          | .ok dal =>
            match WriteMeta dal dal.meta with
            | .error e => .error e
            | .ok dal =>
              .ok { tx := { st.tx with
                            dirtyNodes := []
                            dirtyPages := []
                            pagesToDelete := []
                            allocatedPageNums := [] }
                    dal := dal }

/-- The record-replay loop of `TxLog.Recover`; the callback is the DAL's
`SetPage`, which writes at the recorded page number (the recorded offset is
read but not used by the callback, as in the source). -/
def recoverLoop (data : Bytes) (pageSize : Nat) :
    Nat → Nat → Dal → Dal × Option GoErr
  | _, 0, dal => (dal, none)
  | cursor, n + 1, dal =>
    if cursor + txLogPageOffsetSize + txLogPageNumberSize ≤ data.length then
      let cursor := cursor + txLogPageOffsetSize
      let pageNum := uleDecode ((data.drop cursor).take 8)
      let cursor := cursor + txLogPageNumberSize
      if cursor + pageSize ≤ data.length then
        let page : Page := ⟨pageNum, (data.drop cursor).take pageSize⟩
        match dal.SetPage page with
        | .error e => (dal, some e)
        | .ok dal => recoverLoop data pageSize (cursor + pageSize) n dal
      else (dal, some .panic)
    else (dal, some .panic)

/-- `TxLog.Recover`: nothing to do on an empty log; a short header is an I/O
error; a log no longer than the header replays nothing; otherwise the CRC
recomputed over the record region must equal the header CRC before any record
is replayed. -/
def TxLogRecover (log : Bytes) (dal : Dal) : Dal × Option GoErr :=
  if log.length = 0 then (dal, none)
  else if log.length < txLogHeaderSize then (dal, some .ioError)
  else
    let numPages := uleDecode ((log.drop txLogNumPages).take 8)
    let pageSize := uleDecode ((log.drop txLogPageSize).take 2)
    let expectedCRC := uleDecode ((log.drop txLogCRC).take 4)
    if log.length ≤ txLogHeaderSize then (dal, none)
    else
      let data := log.drop txLogHeaderSize
      let actualCRC := crc32Of data
      if actualCRC ≠ expectedCRC then (dal, some .crcMismatch)
      else recoverLoop data pageSize 0 numPages dal

/-- The existing-file branch of `NewDal`: build the DAL over the on-disk
pages, run recovery when enabled — a recovery failure is only logged, the
open carries on — then read the meta and the freelist, which are the only
failures the caller sees. -/
def newDalOpenExisting (pageSize : Nat) (enableRecovery : Bool) (log : Bytes)
    (filePages : List (Nat × Bytes)) (fileSize : Nat) (fuel : Nat) :
    Except GoErr Dal :=
  let fileSize := max fileSize minFileSize
  let dal : Dal :=
    { filePages := filePages, size := 0, maxPages := 0,
      freelist := NewFreelist BTreePageSize 0, meta := NewMeta pageSize,
      txLog := NewTxLog log, trace := [] }
  let dal := dal.allocateFile fileSize
  let dal := if enableRecovery then (TxLogRecover log dal).1 else dal
  match ReadMeta dal with
  | .error _ => .error .couldNotReadMeta
  | .ok meta =>
    let dal := { dal with meta := meta }
    match ReadFreelist dal fuel with
    | .error _ => .error .couldNotReadFreelist
    | .ok freelist => .ok { dal with freelist := freelist }

/-- The fresh-file branch of `NewDal`: size the file, then write the initial
meta page and (a no-op while clean) the freelist. -/
def newDalOpenFresh (pageSize : Nat) : Except GoErr Dal :=
  let dal : Dal :=
    { filePages := [], size := 0, maxPages := 0,
      freelist := NewFreelist BTreePageSize 0, meta := NewMeta pageSize,
      txLog := NewTxLog [], trace := [] }
  let dal := dal.allocateFile (max 0 minFileSize)
  match WriteMeta dal dal.meta with
  | .error e => .error e
  | .ok dal => WriteFreelist dal

/-- One element of a cursor's traversal stack (`cursorFrame`); the indices are
Go `int`s. -/
structure CursorFrame where
  childIndex : Int
  pageNum : Nat
  children : List Nat
  itemIndex : Int
deriving Repr, DecidableEq

/-- An ordered-traversal cursor (`Cursor`); `node` is nil until positioned. -/
structure Cursor where
  bucket : Bucket
  node : Option BNode
  itemIndex : Int
  childIndex : Int
  stack : List CursorFrame
deriving Repr, DecidableEq

/-- `Bucket.Cursor`. -/
def Bucket.mkCursor (bucket : Bucket) : Cursor :=
  { bucket := bucket, node := none, itemIndex := 0, childIndex := 0, stack := [] }

/-- Go `int` indexing into an item list: negative or past-the-end panics. -/
def itemsIdx (items : List Item) (i : Int) : Except GoErr Item :=
  if i < 0 then .error .panic
  else
    match items.get? i.toNat with
    | none => .error .panic
    | some it => .ok it

/-- `traverseToFirstItem`: descend first children, pushing a frame per
internal node. -/
def traverseToFirstItem (st : St) :
    Nat → Option BNode → List CursorFrame → Except GoErr (Item × BNode × List CursorFrame)
  | 0, _, _ => .error .modelFuelOut
  | fuel + 1, nodeOpt, stack =>
    match nodeOpt with
    | none => .error .nodeNotFound
    | some node =>
      if ¬ node.isLeaf then
        match node.childNodes.head? with
        | none => .error .panic
        | some firstNodeNumber =>
          match Tx.getNode st firstNodeNumber with
          | .error e => .error e
          | .ok childNode =>
            let stack := stack ++
              [{ childIndex := 0, pageNum := node.pageNum, children := node.childNodes,
                 itemIndex := 0 }]
            traverseToFirstItem st fuel (some childNode) stack
      else
        match node.items.head? with
        | none => .error .nodeNotFound
        | some item => .ok (item, node, stack)

/-- `traverseToLastItem`: descend last children, pushing frames that record
the rightmost child index and an item index of `len(items)`. -/
def traverseToLastItem (st : St) :
    Nat → Option BNode → List CursorFrame → Except GoErr (Item × BNode × List CursorFrame)
  | 0, _, _ => .error .modelFuelOut
  | fuel + 1, nodeOpt, stack =>
    match nodeOpt with
    | none => .error .nodeNotFound
    | some node =>
      if ¬ node.isLeaf then
        match node.childNodes.getLast? with
        | none => .error .panic
        | some lastChildPage =>
          match Tx.getNode st lastChildPage with
          | .error e => .error e
          | .ok childNode =>
            let stack := stack ++
              [{ childIndex := (node.childNodes.length : Int) - 1, pageNum := node.pageNum,
                 children := node.childNodes, itemIndex := (node.items.length : Int) }]
            traverseToLastItem st fuel (some childNode) stack
      else
        match node.items.getLast? with
        | none => .error .nodeNotFound
        | some item => .ok (item, node, stack)

/-- `traverseToItem`: binary-search descent pushing a frame (with the chosen
position as both child and item index) per internal node; a child fetch
failure is swallowed into a not-found result. -/
def traverseToItem (st : St) (key : Bytes) (exact : Bool) :
    Nat → BNode → List CursorFrame → Except GoErr (Int × Option BNode × List CursorFrame × Bool)
  | 0, _, _ => .error .modelFuelOut
  | fuel + 1, node, stack =>
    let (pos, isFound) := node.findKeyPosition key
    if isFound then .ok ((pos : Int), some node, stack, true)
    else if node.isLeaf then
      if exact then .ok (-1, none, stack, false)
      else .ok ((pos : Int), some node, stack, true)
    else
      let stack := stack ++
        [{ childIndex := (pos : Int), pageNum := node.pageNum, children := node.childNodes,
           itemIndex := (pos : Int) }]
      match node.childNodes.get? pos with
      | none => .error .panic
      | some childPage =>
        match Tx.getNode st childPage with
        | .error _ => .ok (-1, none, stack, false)
        | .ok child => traverseToItem st key exact fuel child stack

/-- `Cursor.First` (the source's discarded `traverse` page-collection walk has
no observable effect and is omitted). Errors the source swallows become the
`(nil, nil)` result; the value is `getValue`'s result, `none` when that
errored. -/
def Cursor.First (st : St) (fuel : Nat) (cursor : Cursor) :
    Except GoErr (Option (Bytes × Option Bytes) × Cursor) :=
  match Tx.getNode st cursor.bucket.root with
  | .error _ =>
    match traverseToFirstItem st fuel none cursor.stack with
    | .error .modelFuelOut => .error .modelFuelOut
    | .error _ => .ok (none, cursor)
    | .ok _ => .error .panic
  | .ok root =>
    match traverseToFirstItem st fuel (some root) cursor.stack with
    | .error .modelFuelOut => .error .modelFuelOut
    | .error _ => .ok (none, cursor)
    | .ok (item, node, stack) =>
      let cursor := { cursor with node := some node, stack := stack }
      match item.getValue st with
      | .error _ => .ok (some (item.key, none), cursor)
      | .ok v => .ok (some (item.key, some v), cursor)

/-- `Cursor.Last`. -/
def Cursor.Last (st : St) (fuel : Nat) (cursor : Cursor) :
    Except GoErr (Option (Bytes × Option Bytes) × Cursor) :=
  match Tx.getNode st cursor.bucket.root with
  | .error _ =>
    match traverseToLastItem st fuel none cursor.stack with
    | .error .modelFuelOut => .error .modelFuelOut
    | .error _ => .ok (none, cursor)
    | .ok _ => .error .panic
  | .ok root =>
    match traverseToLastItem st fuel (some root) cursor.stack with
    | .error .modelFuelOut => .error .modelFuelOut
    | .error _ => .ok (none, cursor)
    | .ok (item, node, stack) =>
      let cursor := { cursor with
                      node := some node
                      stack := stack
                      itemIndex := (node.items.length : Int) - 1 }
      match item.getValue st with
      | .error _ => .ok (some (item.key, none), cursor)
      | .ok v => .ok (some (item.key, some v), cursor)

/-- `Cursor.Seek`: position at the exact key or the leaf insertion position;
the source indexes `foundNode.items[pos]` without a bounds check. -/
def Cursor.Seek (st : St) (fuel : Nat) (cursor : Cursor) (key : Bytes) :
    Except GoErr (Option (Bytes × Option Bytes) × Cursor) :=
  match Tx.getNode st cursor.bucket.root with
  | .error _ => .error .panic
  | .ok root =>
    match traverseToItem st key false fuel root cursor.stack with
    | .error e => .error e
    | .ok (pos, foundNode, stack, isFound) =>
      if ¬ isFound then .ok (none, { cursor with stack := stack })
      else
        match foundNode with
        | none => .error .panic
        | some foundNode =>
          let cursor := { cursor with
                          node := some foundNode
                          itemIndex := pos
                          stack := stack }
          match itemsIdx foundNode.items pos with
          | .error e => .error e
          | .ok item =>
            match item.getValue st with
            | .error _ => .ok (some (item.key, none), cursor)
            | .ok v => .ok (some (item.key, some v), cursor)

/-- The frame-popping loop of `Cursor.Next`: pop until a frame with an
unexplored right sibling appears, then return the parent's separator item. -/
def nextPopLoop (st : St) (cursor : Cursor) :
    Nat → List CursorFrame → Except GoErr (Option (Bytes × Option Bytes) × Cursor)
  | _, [] => .ok (none, { cursor with stack := [] })
  | 0, _ :: _ => .error .modelFuelOut
  | fuel + 1, f :: fs =>
    let parent := (f :: fs).getLast (List.cons_ne_nil f fs)
    let rest := (f :: fs).dropLast
    if parent.childIndex < (parent.children.length : Int) - 1 then
      match Tx.getNode st parent.pageNum with
      | .error _ => .ok (none, { cursor with stack := rest })
      | .ok node =>
        match itemsIdx node.items parent.itemIndex with
        | .error e => .error e
        | .ok item =>
          let cursor := { cursor with
                          node := some node
                          childIndex := parent.childIndex
                          itemIndex := parent.itemIndex + 1
                          stack := rest }
          match item.getValue st with
          | .error _ => .ok (some (item.key, none), cursor)
          | .ok v => .ok (some (item.key, some v), cursor)
    else nextPopLoop st cursor fuel rest

/-- `Cursor.Next`: advance within a leaf, else pop to the next separator;
from an internal node, descend to the first item of the next child's subtree. -/
def Cursor.Next (st : St) (fuel : Nat) (cursor : Cursor) :
    Except GoErr (Option (Bytes × Option Bytes) × Cursor) :=
  match cursor.node with
  | none => .error .panic
  | some node =>
    if node.isLeaf then
      if cursor.itemIndex < (node.items.length : Int) - 1 then
        let cursor := { cursor with itemIndex := cursor.itemIndex + 1 }
        match itemsIdx node.items cursor.itemIndex with
        | .error e => .error e
        | .ok item =>
          match item.getValue st with
          | .error _ => .ok (some (item.key, none), cursor)
          | .ok v => .ok (some (item.key, some v), cursor)
      else nextPopLoop st cursor cursor.stack.length cursor.stack
    else
      let cursor := { cursor with childIndex := cursor.childIndex + 1 }
      if cursor.childIndex ≥ (node.childNodes.length : Int) then .ok (none, cursor)
      else if cursor.childIndex < 0 then .error .panic
      else
        match node.childNodes.get? cursor.childIndex.toNat with
        | none => .error .panic
        | some childPage =>
          match Tx.getNode st childPage with
          | .error _ => .ok (none, cursor)
          | .ok childNode =>
            let stack := cursor.stack ++
              [{ childIndex := cursor.childIndex, pageNum := node.pageNum,
                 children := node.childNodes, itemIndex := cursor.itemIndex }]
            match traverseToFirstItem st fuel (some childNode) stack with
            | .error .modelFuelOut => .error .modelFuelOut
            | .error _ => .error .panic
            | .ok (item, node', stack) =>
              let cursor := { cursor with
                              node := some node'
                              itemIndex := 0
                              stack := stack }
              match item.getValue st with
              | .error _ => .ok (some (item.key, none), cursor)
              | .ok v => .ok (some (item.key, some v), cursor)

/-- The frame-popping loop of `Cursor.Prev`: pop until a frame with an
unexplored left sibling appears; the returned item's raw stored bytes are the
value, as in the source. -/
def prevPopLoop (st : St) (cursor : Cursor) :
    Nat → List CursorFrame → Except GoErr (Option (Bytes × Option Bytes) × Cursor)
  | _, [] => .ok (none, { cursor with stack := [] })
  | 0, _ :: _ => .error .modelFuelOut
  | fuel + 1, f :: fs =>
    let parent := (f :: fs).getLast (List.cons_ne_nil f fs)
    let rest := (f :: fs).dropLast
    if parent.childIndex > 0 then
      match Tx.getNode st parent.pageNum with
      | .error _ => .ok (none, { cursor with stack := rest })
      | .ok node =>
        let cursor := { cursor with
                        node := some node
                        childIndex := parent.childIndex
                        itemIndex := parent.itemIndex - 1
                        stack := rest }
        match itemsIdx node.items cursor.itemIndex with
        | .error e => .error e
        | .ok item => .ok (some (item.key, some item.value), cursor)
    else prevPopLoop st cursor fuel rest

/-- `Cursor.Prev`: step back within a leaf, else pop to the previous
separator; from an internal node, descend to the last item of the previous
child's subtree. The value returned on every path is the item's raw stored
bytes (`item.Value`), not `getValue`'s decoding. -/
def Cursor.Prev (st : St) (fuel : Nat) (cursor : Cursor) :
    Except GoErr (Option (Bytes × Option Bytes) × Cursor) :=
  match cursor.node with
  | none => .error .panic
  | some node =>
    if node.isLeaf then
      if cursor.itemIndex > 0 then
        let cursor := { cursor with itemIndex := cursor.itemIndex - 1 }
        match itemsIdx node.items cursor.itemIndex with
        | .error e => .error e
        | .ok item => .ok (some (item.key, some item.value), cursor)
      else prevPopLoop st cursor cursor.stack.length cursor.stack
    else
      let cursor := { cursor with childIndex := cursor.childIndex - 1 }
      if cursor.childIndex < 0 then .error .panic
      else
        match node.childNodes.get? cursor.childIndex.toNat with
        | none => .error .panic
        | some childPage =>
          match Tx.getNode st childPage with
          | .error _ => .ok (none, cursor)
          | .ok childNode =>
            let stack := cursor.stack ++
              [{ childIndex := cursor.childIndex, pageNum := node.pageNum,
                 children := node.childNodes, itemIndex := cursor.itemIndex }]
            match traverseToLastItem st fuel (some childNode) stack with
            | .error .modelFuelOut => .error .modelFuelOut
            | .error _ => .error .panic
            | .ok (item, node', stack) =>
              let cursor := { cursor with
                              node := some node'
                              itemIndex := (node'.items.length : Int) - 1
                              stack := stack }
              .ok (some (item.key, some item.value), cursor)

/-! Concrete executions used by the claim theorems. All of them run over a
freshly created database with page size 128 (a power-of-two size the public
`Options.PageSize` accepts) unless stated otherwise; keys and values are
short byte strings. -/

/-- The 20-byte value used by the C1 scenario. -/
def c1Value : Bytes := List.replicate 20 65

/-- The C1 scenario, up to and including its four committed `Put`s: create
bucket "b" (byte 98) and put keys "0".."3" (bytes 48..51). With page size
128 the fourth put splits the root leaf. -/
def c1AfterPuts : Except GoErr (Bucket × St) := do
  let dal ← newDalOpenFresh 128
  let st := DBBegin dal true
  let (b, st) ← Tx.CreateBucket 20 st [98]
  let (b, st) ← Bucket.Put 20 b [48] c1Value st
  let (b, st) ← Bucket.Put 20 b [49] c1Value st
  let (b, st) ← Bucket.Put 20 b [50] c1Value st
  Bucket.Put 20 b [51] c1Value st

/-- The full C1 scenario: after the puts, remove "3" (a right-rotation
rebalance) and then "2" (a merge that empties the root), and commit. -/
def c1Committed : Except GoErr St := do
  let (b, st) ← c1AfterPuts
  let (b, st) ← Bucket.Remove 20 b [51] st
  let (_, st) ← Bucket.Remove 20 b [50] st
  Tx.Commit 20 st

/-- `Get` of `key` in bucket "b" through a fresh read transaction over the
committed C1 state. -/
def c1GetAfter (key : Bytes) : Except GoErr (Option (Option Bytes)) := do
  let st ← c1Committed
  let st2 := DBBegin st.dal false
  let (b2, st2) ← Tx.GetBucket 20 st2 [98]
  Bucket.Get st2 20 b2 key

/-- `Get` of `key` in bucket "b" inside the write transaction right after the
four puts. -/
def c1GetAfterPuts (key : Bytes) : Except GoErr (Option (Option Bytes)) := do
  let (b, st) ← c1AfterPuts
  Bucket.Get st 20 b key

set_option maxRecDepth 10000 in
/-- C1: the claim fails on the code. In the committed sequence `CreateBucket
"b"; Put "0"; Put "1"; Put "2"; Put "3"; Remove "3"; Remove "2"` (page size
128, 20-byte values), the final remove merges the root's two children and
leaves the root with zero items, and the root-promotion step then sets
`bucket.root` to `nodesAlongPath[1]` — the descent child just deleted by the
merge — instead of the root's surviving first child. Keys "0" and "1", written
and never removed, afterwards read back as not-found, though "0" was readable
before the removes. -/
theorem C1_get_loses_live_keys_after_remove :
    c1GetAfterPuts [48] = .ok (some (some c1Value)) ∧
    c1GetAfter [48] = .ok none ∧
    c1GetAfter [49] = .ok none := by
  refine ⟨by decide, by decide, by decide⟩

/-- The C2 scenario: a committed write transaction (create bucket "b", put
one small pair) over a fresh page-size-128 database, projected to the
transaction log's file bytes, record count and active flag, the DAL's write
trace, and whether the bucket's node page (page 3) was written in the main
file. -/
def c2Info : Except GoErr (Bytes × Nat × Bool × List DalEvent × Bool) := do
  let dal ← newDalOpenFresh 128
  let st := DBBegin dal true
  let (b, st) ← Tx.CreateBucket 20 st [98]
  let (_, st) ← Bucket.Put 20 b [97] [120] st
  let st ← Tx.Commit 20 st
  return (st.dal.txLog.fileBytes, st.dal.txLog.numPages, st.dal.txLog.active,
          st.dal.trace, (alookup st.dal.filePages 3).isSome)

set_option maxRecDepth 10000 in
/-- C2: the claim fails on the code. `Tx.Commit` never calls the journal's
`enter`/`leave` (nothing in the repository does besides the unused
`TxLog.With`), so `txLog.active` stays false and `Dal.SetPage` writes every
page in place immediately: after the commit the log file is empty with zero
records, and the write trace consists solely of in-place file writes — the
meta write at open, `CreateBucket`'s direct node write, then the commit's
single in-place pass (root-bucket node, bucket node, freelist, meta) — with
no log append, no log header write, and no second pass. -/
theorem C2_commit_single_pass_no_journal :
    c2Info = .ok ([], 0, false,
      [DalEvent.fileWrite 0, DalEvent.fileWrite 3, DalEvent.fileWrite 2,
       DalEvent.fileWrite 3, DalEvent.fileWrite 1, DalEvent.fileWrite 0], true) := by
  decide

/-- A page-0 image holding a valid serialized meta record for page size 128. -/
def c3MetaPage : Bytes :=
  match (NewMeta 128).serialize (List.replicate 128 0) with
  | .ok d => d
  | .error _ => []

/-- A transaction-log file whose header stores CRC 0 and whose one-byte
record region has CRC `crc32Of [0] ≠ 0`: non-empty and corrupt. -/
def c3Log : Bytes := List.replicate txLogHeaderSize 0 ++ [0]

/-- The C3 base DAL the corrupt-log open runs over. -/
def c3Dal : Dal :=
  { filePages := [(0, c3MetaPage)], size := 32768, maxPages := 256,
    freelist := NewFreelist BTreePageSize 0, meta := NewMeta 128,
    txLog := NewTxLog c3Log, trace := [] }

/-- Opening the C3 database with recovery enabled over the corrupt log. -/
def c3Open : Except GoErr Dal := newDalOpenExisting 128 true c3Log [(0, c3MetaPage)] 32768 20

set_option maxRecDepth 10000 in
/-- C3 counterexample: the claim as stated is false. With a non-empty
transaction log whose recomputed CRC differs from its header CRC, `Recover`
does return a CRC-mismatch error and modifies nothing — but `NewDal` only
logs that error and carries on: the open returns success, with no page
written (empty write trace) and the main file unchanged. The claim's "Open
returns an error to the caller" does not hold. -/
theorem C3_open_succeeds_on_corrupt_log :
    TxLogRecover c3Log c3Dal = (c3Dal, some GoErr.crcMismatch) ∧
    c3Open.toOption.map Dal.trace = some [] ∧
    c3Open.toOption.map Dal.filePages = some [(0, c3MetaPage)] ∧
    (c3Open.toOption.map Dal.trace ≠ none) := by
  refine ⟨by decide, by decide, by decide, by decide⟩

/-- Helper for the amended C3: on any log longer than the header whose
recomputed record-region CRC differs from the header CRC, `Recover` returns
the CRC-mismatch error and leaves the DAL — in particular every page of the
main database file — untouched. -/
theorem recover_mismatch_is_error_without_writes
    (log : Bytes) (dal : Dal)
    (hlen : txLogHeaderSize < log.length)
    (hcrc : crc32Of (log.drop txLogHeaderSize) ≠
      uleDecode ((log.drop txLogCRC).take 4)) :
    TxLogRecover log dal = (dal, some GoErr.crcMismatch) := by
  have h14 : txLogHeaderSize = 14 := rfl
  unfold TxLogRecover
  rw [if_neg (by omega), if_neg (by omega), if_neg (by omega)]
  show (if crc32Of (log.drop txLogHeaderSize) ≠ uleDecode ((log.drop txLogCRC).take 4)
      then (dal, some GoErr.crcMismatch)
      else recoverLoop (log.drop txLogHeaderSize)
        (uleDecode ((log.drop txLogPageSize).take 2)) 0
        (uleDecode ((log.drop txLogNumPages).take 8)) dal) =
    (dal, some GoErr.crcMismatch)
  exact if_pos hcrc

/-- Helper for the amended C3: under the same corruption, opening with
recovery enabled behaves exactly as opening with recovery disabled — the
recovery error is logged, not propagated, and the open's outcome is decided
solely by the meta and freelist reads. -/
theorem open_ignores_recovery_error
    (pageSize : Nat) (log : Bytes) (filePages : List (Nat × Bytes))
    (fileSize fuel : Nat)
    (hlen : txLogHeaderSize < log.length)
    (hcrc : crc32Of (log.drop txLogHeaderSize) ≠
      uleDecode ((log.drop txLogCRC).take 4)) :
    newDalOpenExisting pageSize true log filePages fileSize fuel =
      newDalOpenExisting pageSize false log filePages fileSize fuel := by
  have hrec : ∀ d : Dal, (TxLogRecover log d).1 = d := fun d => by
    rw [recover_mismatch_is_error_without_writes log d hlen hcrc]
  unfold newDalOpenExisting
  simp only [hrec, ite_self]

/-- C3 amended: if recovery is enabled and the transaction-log file is longer
than its header with a record-region CRC that differs from the header CRC,
then `Recover` aborts with the CRC-mismatch error without modifying any page
of the main database file — but `NewDal` only logs that error and continues:
`Open` behaves exactly as it would with recovery disabled, so the error is
not returned to the caller. -/
theorem C3_amended_corrupt_log_skipped_not_propagated
    (pageSize : Nat) (log : Bytes) (dal : Dal) (filePages : List (Nat × Bytes))
    (fileSize fuel : Nat)
    (hlen : txLogHeaderSize < log.length)
    (hcrc : crc32Of (log.drop txLogHeaderSize) ≠
      uleDecode ((log.drop txLogCRC).take 4)) :
    TxLogRecover log dal = (dal, some GoErr.crcMismatch) ∧
    newDalOpenExisting pageSize true log filePages fileSize fuel =
      newDalOpenExisting pageSize false log filePages fileSize fuel :=
  ⟨recover_mismatch_is_error_without_writes log dal hlen hcrc,
   open_ignores_recovery_error pageSize log filePages fileSize fuel hlen hcrc⟩

/-- Witness for `C3_amended_corrupt_log_skipped_not_propagated` at the
concrete corrupt log. -/
theorem C3_amended_witness :
    TxLogRecover c3Log c3Dal = (c3Dal, some GoErr.crcMismatch) ∧
    newDalOpenExisting 128 true c3Log [(0, c3MetaPage)] 32768 20 =
      newDalOpenExisting 128 false c3Log [(0, c3MetaPage)] 32768 20 :=
  C3_amended_corrupt_log_skipped_not_propagated 128 c3Log c3Dal [(0, c3MetaPage)]
    32768 20 (by decide) (by decide)

/-- The C4 read transaction over a committed one-bucket database, together
with the bucket handle `GetBucket` returned. -/
def c4ReadTx : Except GoErr (Bucket × St) := do
  let dal ← newDalOpenFresh 128
  let st := DBBegin dal true
  let (b, st) ← Tx.CreateBucket 20 st [98]
  let (_, st) ← Bucket.Put 20 b [97] [120] st
  let st ← Tx.Commit 20 st
  let st2 := DBBegin st.dal false
  Tx.GetBucket 20 st2 [98]

/-- `Put` through the C4 read transaction, projected to the write flag, the
result's error-freeness, the dirty-node count before and after, and the
updated bucket counter. -/
def c4PutInfo : Except GoErr (Bool × Nat × Nat × Nat) := do
  let (b, st) ← c4ReadTx
  let before := st.tx.dirtyNodes.length
  let (b2, st2) ← Bucket.Put 20 b [107] [118] st
  return (st.tx.write, before, st2.tx.dirtyNodes.length, b2.itemsN)

set_option maxRecDepth 10000 in
/-- C4 counterexample: the claim as stated is false. `Bucket.Put` performs no
write-transaction check: through a transaction begun with `write = false` it
returns success — not the "write in read transaction" error — and mutates
state, growing the transaction's dirty-node set from zero to one entry and
the bucket's item counter to 2. -/
theorem C4_put_succeeds_in_read_tx :
    c4PutInfo = .ok (false, 0, 1, 2) ∧
    c4PutInfo ≠ .error .writeInRxTransaction := by
  refine ⟨by decide, by decide⟩

/-- C4 amended: the mutating operations that do check the flag. In any state
whose transaction was begun with `write = false`, `Tx.CreateBucket`,
`Tx.CreateBucketIfNotExists` and `Tx.DeleteBucket` fail with the
"write in read transaction" error with the state unchanged, and
`Bucket.NextSequence` on any bucket with a live transaction pointer does the
same (`Bucket.Put` and `Bucket.Remove` perform no such check, as the
counterexample shows). -/
theorem C4_amended_tx_level_ops_rejected (st : St) (name : Bytes) (fuel : Nat)
    (bucket : Bucket) (hw : st.tx.write = false) (hb : bucket.txBound = true) :
    Tx.CreateBucket fuel st name = .error .writeInRxTransaction ∧
    Tx.CreateBucketIfNotExists fuel st name = .error .writeInRxTransaction ∧
    Tx.DeleteBucket fuel st name = .error .writeInRxTransaction ∧
    Bucket.NextSequence bucket st = .error .writeInRxTransaction := by
  refine ⟨?_, ?_, ?_, ?_⟩
  · unfold Tx.CreateBucket; simp [hw]
  · unfold Tx.CreateBucketIfNotExists; simp [hw]
  · unfold Tx.DeleteBucket; simp [hw]
  · unfold Bucket.NextSequence; simp [hw, hb]

/-- Witness for `C4_amended_tx_level_ops_rejected` at a concrete read
transaction. -/
theorem C4_amended_witness :
    Tx.CreateBucket 1 (DBBegin c3Dal false) [98] = .error .writeInRxTransaction ∧
    Tx.CreateBucketIfNotExists 1 (DBBegin c3Dal false) [98] =
      .error .writeInRxTransaction ∧
    Tx.DeleteBucket 1 (DBBegin c3Dal false) [98] = .error .writeInRxTransaction ∧
    Bucket.NextSequence (Tx.getRootBucket (DBBegin c3Dal false)) (DBBegin c3Dal false) =
      .error .writeInRxTransaction :=
  C4_amended_tx_level_ops_rejected (DBBegin c3Dal false) [98] 1
    (Tx.getRootBucket (DBBegin c3Dal false)) (by decide) (by decide)

/-- The C5/C6 committed bucket: "b" holds "a" ↦ "x" and "b" ↦ "y" (bytes 97
↦ 120, 98 ↦ 121), read through a fresh read transaction. -/
def c5State : Except GoErr (Bucket × St) := do
  let dal ← newDalOpenFresh 128
  let st := DBBegin dal true
  let (b, st) ← Tx.CreateBucket 20 st [98]
  let (b, st) ← Bucket.Put 20 b [97] [120] st
  let (_, st) ← Bucket.Put 20 b [98] [121] st
  let st ← Tx.Commit 20 st
  let st2 := DBBegin st.dal false
  Tx.GetBucket 20 st2 [98]

/-- First, then two `Next` steps over the C5 bucket, as a result list. -/
def c5FirstNextRun : Except GoErr (List (Option (Bytes × Option Bytes))) := do
  let (b, st) ← c5State
  let (r1, c) ← Cursor.First st 20 b.mkCursor
  let (r2, c) ← Cursor.Next st 20 c
  let (r3, _) ← Cursor.Next st 20 c
  return [r1, r2, r3]

/-- Last, then two `Prev` steps over the C5 bucket, as a result list. -/
def c5LastPrevRun : Except GoErr (List (Option (Bytes × Option Bytes))) := do
  let (b, st) ← c5State
  let (r1, c) ← Cursor.Last st 20 b.mkCursor
  let (r2, c) ← Cursor.Prev st 20 c
  let (r3, _) ← Cursor.Prev st 20 c
  return [r1, r2, r3]

set_option maxRecDepth 10000 in
/-- C5: the claim fails on the code. First/Next yields the two pairs in
ascending order with their stored values decoded (`getValue` strips the
one-byte type tag). Last/Prev yields the keys reversed, but `Cursor.Prev`
returns the raw in-item bytes (`item.Value`) without decoding: the second
pair carries the value `[0, 120]` — the inline tag byte followed by "x" —
instead of the stored value `[120]`, so the Last/Prev sequence is not the
reverse of the First/Next sequence. -/
theorem C5_prev_returns_raw_tagged_values :
    c5FirstNextRun = .ok [some ([97], some [120]), some ([98], some [121]), none] ∧
    c5LastPrevRun = .ok [some ([98], some [121]), some ([97], some [0, 120]), none] ∧
    c5LastPrevRun ≠
      .ok [some ([98], some [121]), some ([97], some [120]), none] := by
  refine ⟨by decide, by decide, by decide⟩

/-- `Seek` over the C5/C6 bucket, projected to the returned pair. -/
def c6Seek (key : Bytes) : Except GoErr (Option (Bytes × Option Bytes)) := do
  let (b, st) ← c5State
  let (r, _) ← Cursor.Seek st 20 b.mkCursor key
  return r

set_option maxRecDepth 10000 in
/-- C6: the claim fails on the code. Over the bucket holding keys "a" and
"b", seeking a key below every stored key positions on the first key, and
seeking between the two keys returns the smallest key ≥ the target — but
seeking "c", greater than every stored key, makes `Cursor.Seek` index
`foundNode.items[pos]` with `pos = len(items)` and panic (index out of
range) instead of returning the past-the-end `(nil, nil)` sentinel the claim
requires. -/
theorem C6_seek_past_end_panics :
    c6Seek [99] = .error .panic ∧
    c6Seek [97, 97] = .ok (some ([98], some [121])) ∧
    c6Seek [] = .ok (some ([97], some [120])) := by
  refine ⟨by decide, by decide, by decide⟩

/-- The C8 scenario: over a fresh page-size-128 database, save a 1200-byte
blob (a value over `MaxValueSize`, giving a one-page chain under the
`BTreePageSize`-constant layout), then delete it; projected to the chain
page count, the byte length `Save` recorded in the first page's header, the
length `DeleteBlob` returned, and the transaction's pages-to-delete list. -/
def c8Info : Except GoErr (Nat × Option Nat × Nat × List Nat) := do
  let dal ← newDalOpenFresh 128
  let st := DBBegin dal true
  let blob ← NewBlob (List.replicate 1200 7)
  let (firstPage, st) ← blob.save st
  let pg ← Tx.getPage st firstPage
  let recorded := readULE 4 pg.data blobFirstPageDataSizeOffset
  let (dataLen, st) ← DeleteBlob st firstPage
  return (blob.pageCount, recorded, dataLen, st.tx.pagesToDelete)

set_option maxRecDepth 100000 in
/-- C8: the claim fails on the code. Deleting the chain marks its page (page
3) for release exactly once, but `DeleteBlob` reads the byte length with
`page.Data[blobDataSizeBytes:]` — offset 4, the size constant — instead of
`blobFirstPageDataSizeOffset` (offset 5) where `Save` recorded it, so the
misaligned u32 spans the top byte of the page count and the low three bytes
of the length: it returns 307200 (= 1200 · 256) rather than the recorded
1200. -/
theorem C8_deleteblob_misreads_length :
    c8Info = .ok (1, some 1200, 307200, [3]) ∧ (307200 : Nat) ≠ 1200 := by
  refine ⟨by decide, by decide⟩

/-! Serialization round-trip (claim C7): supporting definitions and lemmas. -/

/-- Adjacent-pair key ordering: `true` when every consecutive pair of items is
in strictly ascending key order. -/
def itemsOrdered : List Item → Bool
  | [] => true
  | [_] => true
  | a :: b :: rest => (bytesCompare a.key b.key == .lt) && itemsOrdered (b :: rest)

/-- A node is valid in the claim's sense: items in strictly ascending key
order, a leaf has zero children and an internal node with N items has N + 1
children, and every machine-integer field fits its on-disk width (counts and
lengths are `uint16`s, child page numbers `uint64`s, as in the Go types). -/
def validNode (n : BNode) : Prop :=
  itemsOrdered n.items = true ∧
  (n.childNodes = [] ∨ n.childNodes.length = n.items.length + 1) ∧
  n.items.length < 2 ^ 16 ∧ n.childNodes.length < 2 ^ 16 ∧
  (∀ c ∈ n.childNodes, c < 2 ^ 64) ∧
  (∀ it ∈ n.items, it.key.length < 2 ^ 16 ∧ it.value.length < 2 ^ 16)

instance (n : BNode) : Decidable (validNode n) :=
  inferInstanceAs (Decidable (itemsOrdered n.items = true ∧
    (n.childNodes = [] ∨ n.childNodes.length = n.items.length + 1) ∧
    n.items.length < 2 ^ 16 ∧ n.childNodes.length < 2 ^ 16 ∧
    (∀ c ∈ n.childNodes, c < 2 ^ 64) ∧
    (∀ it ∈ n.items, it.key.length < 2 ^ 16 ∧ it.value.length < 2 ^ 16)))

/-- The number of bytes `Serialize` lays down for a node: header, child
count, child pointers, then each item's two length fields, key and value. -/
def BNode.serializedSize (n : BNode) : Nat :=
  NodeHeaderSize + UInt16Size + UInt64Size * n.childNodes.length +
    (n.items.map (fun it => 2 * UInt16Size + it.key.length + it.value.length)).sum

/-- The child-pointer region `Serialize` writes. -/
def flatChildren (cs : List Nat) : Bytes := (cs.map (uleBytes 8)).flatten

/-- The item region `Serialize` writes. -/
def flatItems (its : List Item) : Bytes :=
  (its.map (fun it =>
    uleBytes 2 it.key.length ++ uleBytes 2 it.value.length ++ it.key ++ it.value)).flatten

/-- The exact byte image `Serialize` produces, before zero padding. -/
def flatNode (n : BNode) : Bytes :=
  uleBytes 1 NodePage ++ uleBytes 1 (if n.isLeaf then 1 else 0) ++
    uleBytes 2 (n.numItems % 2 ^ 16) ++ uleBytes 2 (n.childNodes.length % 2 ^ 16) ++
    flatChildren n.childNodes ++ flatItems n.items

theorem uleBytes_length (k v : Nat) : (uleBytes k v).length = k := by
  induction k generalizing v with
  | zero => rfl
  | succ k ih => simp [uleBytes, ih]

theorem uleDecode_uleBytes (k v : Nat) : uleDecode (uleBytes k v) = v % 2 ^ (8 * k) := by
  induction k generalizing v with
  | zero => simp [uleBytes, uleDecode, Nat.mod_one]
  | succ k ih =>
    have h256 : (0:Nat) < 256 := by norm_num
    have hv := Nat.div_add_mod v 256
    have hlt : v % 256 + 256 * (v / 256 % 2 ^ (8 * k)) < 256 * 2 ^ (8 * k) := by
      have h1 : v % 256 < 256 := Nat.mod_lt _ h256
      have h2 : v / 256 % 2 ^ (8 * k) < 2 ^ (8 * k) :=
        Nat.mod_lt _ (Nat.pos_pow_of_pos _ (by norm_num))
      calc v % 256 + 256 * (v / 256 % 2 ^ (8 * k))
          < 256 + 256 * (v / 256 % 2 ^ (8 * k)) := by omega
        _ ≤ 256 * 2 ^ (8 * k) := by
            have := Nat.succ_le_of_lt h2
            calc 256 + 256 * (v / 256 % 2 ^ (8 * k))
                = 256 * (v / 256 % 2 ^ (8 * k) + 1) := by ring
              _ ≤ 256 * 2 ^ (8 * k) := Nat.mul_le_mul_left _ (by omega)
    have hsplit : v % (256 * 2 ^ (8 * k)) = v % 256 + 256 * (v / 256 % 2 ^ (8 * k)) := by
      conv_lhs => rw [← hv]
      rw [Nat.add_comm (256 * (v / 256)) (v % 256)]
      have : 256 * (v / 256) = 256 * (2 ^ (8 * k) * (v / 256 / 2 ^ (8 * k))) +
          256 * (v / 256 % 2 ^ (8 * k)) := by
        conv_lhs => rw [← Nat.div_add_mod (v / 256) (2 ^ (8 * k))]
        ring
      rw [this, ← Nat.add_assoc]
      have hrw : 256 * (2 ^ (8 * k) * (v / 256 / 2 ^ (8 * k))) =
          (256 * 2 ^ (8 * k)) * (v / 256 / 2 ^ (8 * k)) := by ring
      rw [Nat.add_comm (v % 256) (256 * (2 ^ (8 * k) * (v / 256 / 2 ^ (8 * k)))), hrw,
        Nat.add_assoc, Nat.mul_add_mod, Nat.mod_eq_of_lt hlt]
    have hpow : 2 ^ (8 * (k + 1)) = 256 * 2 ^ (8 * k) := by
      rw [Nat.mul_succ, Nat.pow_add]; ring
    simp only [uleBytes, uleDecode, ih, hpow, hsplit]

theorem copyAt_exact (pre src tail : Bytes) (h : src.length ≤ tail.length) :
    copyAt (pre ++ tail) pre.length src = pre ++ src ++ tail.drop src.length := by
  unfold copyAt
  rw [List.take_left, List.length_append]
  have h1 : pre.length + tail.length - pre.length = tail.length := by omega
  rw [h1, List.take_of_length_le h, List.drop_append]

theorem putULE_exact (k v : Nat) (pre tail : Bytes) (h : k ≤ tail.length) :
    putULE k (pre ++ tail) pre.length v = some (pre ++ uleBytes k v ++ tail.drop k) := by
  unfold putULE
  rw [if_pos (by rw [List.length_append]; omega)]
  rw [copyAt_exact pre _ tail (by rw [uleBytes_length]; exact h), uleBytes_length]

theorem readULE_exact (k v : Nat) (pre rest : Bytes) :
    readULE k (pre ++ (uleBytes k v ++ rest)) pre.length = some (v % 2 ^ (8 * k)) := by
  unfold readULE
  rw [if_pos (by simp only [List.length_append, uleBytes_length]; omega)]
  rw [List.drop_left, List.take_append_of_le_length (by rw [uleBytes_length]),
    List.take_of_length_le (by rw [uleBytes_length]), uleDecode_uleBytes]

theorem flatChildren_length (cs : List Nat) : (flatChildren cs).length = 8 * cs.length := by
  induction cs with
  | nil => rfl
  | cons c cs ih =>
    simp only [flatChildren, List.map_cons, List.flatten_cons, List.length_append,
      uleBytes_length, List.length_cons] at ih ⊢
    omega

theorem flatItems_length (its : List Item) :
    (flatItems its).length =
      (its.map (fun it => 2 * UInt16Size + it.key.length + it.value.length)).sum := by
  induction its with
  | nil => rfl
  | cons it its ih =>
    simp only [flatItems, List.map_cons, List.flatten_cons, List.length_append,
      uleBytes_length, List.sum_cons, UInt16Size] at ih ⊢
    omega

theorem serializeChildren_exact (cs : List Nat) (pre tail : Bytes)
    (h : 8 * cs.length ≤ tail.length) :
    serializeChildren cs (pre ++ tail) pre.length =
      .ok (pre ++ flatChildren cs ++ tail.drop (8 * cs.length)) := by
  induction cs generalizing pre tail with
  | nil => simp [serializeChildren, flatChildren]
  | cons c cs ih =>
    simp only [List.length_cons] at h
    simp only [serializeChildren, putULE_exact 8 c pre tail (by omega)]
    have hlen : pre.length + UInt64Size = (pre ++ uleBytes 8 c).length := by
      simp [uleBytes_length, UInt64Size]
    rw [hlen, ih (pre ++ uleBytes 8 c) (tail.drop 8) (by simp only [List.length_drop]; omega)]
    have hmul : 8 * (c :: cs).length = 8 + 8 * cs.length := by
      simp only [List.length_cons]; ring
    simp only [flatChildren, List.map_cons, List.flatten_cons, List.append_assoc,
      List.drop_drop, hmul]

theorem putULE_at (k v pos : Nat) (pre tail : Bytes) (hpos : pos = pre.length)
    (h : k ≤ tail.length) :
    putULE k (pre ++ tail) pos v = some (pre ++ uleBytes k v ++ tail.drop k) := by
  subst hpos; exact putULE_exact k v pre tail h

theorem copyAt_at (src : Bytes) (pos : Nat) (pre tail : Bytes) (hpos : pos = pre.length)
    (h : src.length ≤ tail.length) :
    copyAt (pre ++ tail) pos src = pre ++ src ++ tail.drop src.length := by
  subst hpos; exact copyAt_exact pre src tail h

theorem serializeItems_exact (its : List Item) (pre tail : Bytes)
    (h : (flatItems its).length ≤ tail.length) :
    serializeItems its (pre ++ tail) pre.length =
      .ok (pre ++ flatItems its ++ tail.drop (flatItems its).length) := by
  induction its generalizing pre tail with
  | nil => simp [serializeItems, flatItems]
  | cons it its ih =>
    have hstep : (flatItems (it :: its)).length =
        4 + it.key.length + it.value.length + (flatItems its).length := by
      simp only [flatItems, List.map_cons, List.flatten_cons, List.length_append,
        uleBytes_length, UInt16Size]
    rw [hstep] at h
    simp only [serializeItems,
      if_neg (show ¬pre.length + it.key.length + it.value.length ≥ (pre ++ tail).length from by
        simp only [List.length_append]; omega),
      putULE_at 2 it.key.length pre.length pre tail rfl (by omega),
      putULE_at 2 it.value.length (pre.length + UInt16Size) (pre ++ uleBytes 2 it.key.length)
        (tail.drop 2) (by simp only [List.length_append, uleBytes_length, UInt16Size])
        (by simp only [List.length_drop]; omega),
      copyAt_at it.key (pre.length + 2 * UInt16Size)
        (pre ++ uleBytes 2 it.key.length ++ uleBytes 2 it.value.length)
        ((tail.drop 2).drop 2) (by simp only [List.length_append, uleBytes_length, UInt16Size])
        (by simp only [List.length_drop]; omega),
      copyAt_at it.value (pre.length + 2 * UInt16Size + it.key.length)
        (pre ++ uleBytes 2 it.key.length ++ uleBytes 2 it.value.length ++ it.key)
        (((tail.drop 2).drop 2).drop it.key.length)
        (by simp only [List.length_append, uleBytes_length, UInt16Size])
        (by simp only [List.length_drop]; omega)]
    rw [show pre.length + 2 * UInt16Size + it.key.length + it.value.length =
        (pre ++ uleBytes 2 it.key.length ++ uleBytes 2 it.value.length ++ it.key ++
          it.value).length from by simp only [List.length_append, uleBytes_length, UInt16Size]]
    rw [ih (pre ++ uleBytes 2 it.key.length ++ uleBytes 2 it.value.length ++ it.key ++ it.value)
      ((((tail.drop 2).drop 2).drop it.key.length).drop it.value.length)
      (by simp only [List.length_drop]; omega)]
    rw [hstep]
    simp only [flatItems, List.map_cons, List.flatten_cons, List.append_assoc, List.drop_drop]

theorem readULE_window (k v : Nat) (data z : Bytes) (pos : Nat) (hk : 0 < k)
    (hv : v < 2 ^ (8 * k)) (h : data.drop pos = uleBytes k v ++ z) :
    readULE k data pos = some v := by
  have hlen : data.length - pos = k + z.length := by
    have hc := congrArg List.length h
    simpa [uleBytes_length] using hc
  have hple : pos + k ≤ data.length := by
    rcases le_or_lt pos data.length with hle | hlt
    · omega
    · rw [List.drop_eq_nil_of_le (le_of_lt hlt)] at h
      have hc := congrArg List.length h
      simp [uleBytes_length] at hc
      omega
  unfold readULE
  rw [if_pos hple, h, List.take_append_of_le_length (by rw [uleBytes_length]),
    List.take_of_length_le (by rw [uleBytes_length]), uleDecode_uleBytes,
    Nat.mod_eq_of_lt hv]

theorem deserializeChildren_exact (cs : List Nat) (pre rest : Bytes)
    (hc : ∀ c ∈ cs, c < 2 ^ 64) :
    deserializeChildren (pre ++ (flatChildren cs ++ rest)) pre.length cs.length =
      some (cs, 8 * cs.length) := by
  induction cs generalizing pre rest with
  | nil => simp [deserializeChildren]
  | cons c cs ih =>
    simp only [List.length_cons]
    have r : readULE 8 (pre ++ (flatChildren (c :: cs) ++ rest)) pre.length = some c := by
      refine readULE_window 8 c _ (flatChildren cs ++ rest) pre.length (by norm_num)
        (hc c (List.mem_cons_self c cs)) ?_
      rw [show pre ++ (flatChildren (c :: cs) ++ rest) =
          pre ++ (uleBytes 8 c ++ (flatChildren cs ++ rest)) from by
        simp only [flatChildren, List.map_cons, List.flatten_cons, List.append_assoc]]
      exact List.drop_left _ _
    simp only [deserializeChildren, r]
    rw [show pre ++ (flatChildren (c :: cs) ++ rest) =
        (pre ++ uleBytes 8 c) ++ (flatChildren cs ++ rest) from by
      simp only [flatChildren, List.map_cons, List.flatten_cons, List.append_assoc],
      show pre.length + UInt64Size = (pre ++ uleBytes 8 c).length from by
        simp [uleBytes_length, UInt64Size]]
    rw [ih (pre ++ uleBytes 8 c) rest (fun x hx => hc x (List.mem_cons_of_mem c hx))]
    simp [UInt64Size, Nat.mul_succ]

theorem deserializeItems_exact (its : List Item) (pre rest : Bytes)
    (hb : ∀ it ∈ its, it.key.length < 2 ^ 16 ∧ it.value.length < 2 ^ 16) :
    deserializeItems (pre ++ (flatItems its ++ rest)) pre.length its.length = some its := by
  induction its generalizing pre rest with
  | nil => simp [deserializeItems]
  | cons it its ih =>
    have hbit := hb it (List.mem_cons_self it its)
    have hbits : ∀ x ∈ its, x.key.length < 2 ^ 16 ∧ x.value.length < 2 ^ 16 :=
      fun x hx => hb x (List.mem_cons_of_mem it hx)
    have hexp : pre ++ (flatItems (it :: its) ++ rest) =
        pre ++ (uleBytes 2 it.key.length ++ (uleBytes 2 it.value.length ++ (it.key ++
          (it.value ++ (flatItems its ++ rest))))) := by
      simp only [flatItems, List.map_cons, List.flatten_cons, List.append_assoc]
    have r1 : readULE 2 (pre ++ (flatItems (it :: its) ++ rest)) pre.length =
        some it.key.length := by
      refine readULE_window 2 it.key.length _
        (uleBytes 2 it.value.length ++ (it.key ++ (it.value ++ (flatItems its ++ rest))))
        pre.length (by norm_num) hbit.1 ?_
      rw [hexp]
      exact List.drop_left _ _
    have r2 : readULE 2 (pre ++ (flatItems (it :: its) ++ rest)) (pre.length + UInt16Size) =
        some it.value.length := by
      refine readULE_window 2 it.value.length _
        (it.key ++ (it.value ++ (flatItems its ++ rest))) (pre.length + UInt16Size)
        (by norm_num) hbit.2 ?_
      rw [show pre ++ (flatItems (it :: its) ++ rest) =
          (pre ++ uleBytes 2 it.key.length) ++ (uleBytes 2 it.value.length ++ (it.key ++
            (it.value ++ (flatItems its ++ rest)))) from by
        simp only [flatItems, List.map_cons, List.flatten_cons, List.append_assoc],
        show pre.length + UInt16Size = (pre ++ uleBytes 2 it.key.length).length from by
          simp [uleBytes_length, UInt16Size]]
      exact List.drop_left _ _
    have hkeyw : ((pre ++ (flatItems (it :: its) ++ rest)).drop
        (pre.length + 2 * UInt16Size)).take it.key.length = it.key := by
      rw [show pre ++ (flatItems (it :: its) ++ rest) =
          (pre ++ uleBytes 2 it.key.length ++ uleBytes 2 it.value.length) ++ (it.key ++
            (it.value ++ (flatItems its ++ rest))) from by
        simp only [flatItems, List.map_cons, List.flatten_cons, List.append_assoc],
        show pre.length + 2 * UInt16Size =
            (pre ++ uleBytes 2 it.key.length ++ uleBytes 2 it.value.length).length from by
          simp [uleBytes_length, UInt16Size] <;> omega,
        List.drop_left]
      exact List.take_left _ _
    have hvalw : ((pre ++ (flatItems (it :: its) ++ rest)).drop
        (pre.length + 2 * UInt16Size + it.key.length)).take it.value.length = it.value := by
      rw [show pre ++ (flatItems (it :: its) ++ rest) =
          (pre ++ uleBytes 2 it.key.length ++ uleBytes 2 it.value.length ++ it.key) ++
            (it.value ++ (flatItems its ++ rest)) from by
        simp only [flatItems, List.map_cons, List.flatten_cons, List.append_assoc],
        show pre.length + 2 * UInt16Size + it.key.length =
            (pre ++ uleBytes 2 it.key.length ++ uleBytes 2 it.value.length ++
              it.key).length from by
          simp [uleBytes_length, UInt16Size] <;> omega,
        List.drop_left]
      exact List.take_left _ _
    have hflen : (flatItems (it :: its)).length =
        4 + it.key.length + it.value.length + (flatItems its).length := by
      simp only [flatItems, List.map_cons, List.flatten_cons, List.length_append,
        uleBytes_length]
    simp only [List.length_cons, deserializeItems, r1, r2]
    rw [if_pos (show pre.length + 2 * UInt16Size + it.key.length + it.value.length ≤
        (pre ++ (flatItems (it :: its) ++ rest)).length from by
      simp only [List.length_append, UInt16Size, hflen]; omega)]
    rw [hkeyw, hvalw]
    rw [show pre ++ (flatItems (it :: its) ++ rest) =
        (pre ++ uleBytes 2 it.key.length ++ uleBytes 2 it.value.length ++ it.key ++
          it.value) ++ (flatItems its ++ rest) from by
      simp only [flatItems, List.map_cons, List.flatten_cons, List.append_assoc],
      show pre.length + 2 * UInt16Size + it.key.length + it.value.length =
          (pre ++ uleBytes 2 it.key.length ++ uleBytes 2 it.value.length ++ it.key ++
            it.value).length from by
        simp [uleBytes_length, UInt16Size] <;> omega]
    rw [ih (pre ++ uleBytes 2 it.key.length ++ uleBytes 2 it.value.length ++ it.key ++
      it.value) rest hbits]

theorem deserialize_exact_leaf (pt : Nat) (its : List Item) (rest : Bytes)
    (hni : its.length < 2 ^ 16)
    (hb : ∀ it ∈ its, it.key.length < 2 ^ 16 ∧ it.value.length < 2 ^ 16) :
    BNode.deserialize (uleBytes 1 pt ++ uleBytes 1 1 ++ uleBytes 2 its.length ++
        uleBytes 2 0 ++ flatItems its ++ rest) =
      some { NewBNode with items := its, childNodes := [] } := by
  have r1 : readULE 1 (uleBytes 1 pt ++ uleBytes 1 1 ++ uleBytes 2 its.length ++
      uleBytes 2 0 ++ flatItems its ++ rest) NodeTypeOffset = some 1 := by
    refine readULE_window 1 1 _ (uleBytes 2 its.length ++ (uleBytes 2 0 ++
      (flatItems its ++ rest))) NodeTypeOffset (by norm_num) (by norm_num) ?_
    rw [show uleBytes 1 pt ++ uleBytes 1 1 ++ uleBytes 2 its.length ++
        uleBytes 2 0 ++ flatItems its ++ rest =
        uleBytes 1 pt ++ (uleBytes 1 1 ++ (uleBytes 2 its.length ++ (uleBytes 2 0 ++
          (flatItems its ++ rest)))) from by simp only [List.append_assoc],
      show NodeTypeOffset = (uleBytes 1 pt).length from by
        simp [NodeTypeOffset, NodePageTypeOffset, NodePageTypeSize, UInt8Size, uleBytes_length]]
    exact List.drop_left _ _
  have r2 : readULE 2 (uleBytes 1 pt ++ uleBytes 1 1 ++ uleBytes 2 its.length ++
      uleBytes 2 0 ++ flatItems its ++ rest) NodeNumItemsOffset = some its.length := by
    refine readULE_window 2 its.length _ (uleBytes 2 0 ++ (flatItems its ++ rest))
      NodeNumItemsOffset (by norm_num) hni ?_
    rw [show uleBytes 1 pt ++ uleBytes 1 1 ++ uleBytes 2 its.length ++
        uleBytes 2 0 ++ flatItems its ++ rest =
        (uleBytes 1 pt ++ uleBytes 1 1) ++ (uleBytes 2 its.length ++ (uleBytes 2 0 ++
          (flatItems its ++ rest))) from by simp only [List.append_assoc],
      show NodeNumItemsOffset = (uleBytes 1 pt ++ uleBytes 1 1).length from by
        simp [NodeNumItemsOffset, NodeTypeOffset, NodePageTypeOffset, NodePageTypeSize,
          NodeTypeSize, UInt8Size, uleBytes_length]]
    exact List.drop_left _ _
  have r3 : readULE 2 (uleBytes 1 pt ++ uleBytes 1 1 ++ uleBytes 2 its.length ++
      uleBytes 2 0 ++ flatItems its ++ rest) NodeHeaderSize = some 0 := by
    refine readULE_window 2 0 _ (flatItems its ++ rest) NodeHeaderSize
      (by norm_num) (by norm_num) ?_
    rw [show uleBytes 1 pt ++ uleBytes 1 1 ++ uleBytes 2 its.length ++
        uleBytes 2 0 ++ flatItems its ++ rest =
        (uleBytes 1 pt ++ uleBytes 1 1 ++ uleBytes 2 its.length) ++ (uleBytes 2 0 ++
          (flatItems its ++ rest)) from by simp only [List.append_assoc],
      show NodeHeaderSize = (uleBytes 1 pt ++ uleBytes 1 1 ++ uleBytes 2 its.length).length
        from by simp [NodeHeaderSize, NodePageTypeSize, NodeTypeSize, NodeNumItemsSize,
          UInt8Size, UInt16Size, uleBytes_length]]
    exact List.drop_left _ _
  simp only [BNode.deserialize, r1, r2, r3, if_neg (show ¬(1 : Nat) = 0 by norm_num),
    Nat.add_zero]
  rw [show uleBytes 1 pt ++ uleBytes 1 1 ++ uleBytes 2 its.length ++
      uleBytes 2 0 ++ flatItems its ++ rest =
      (uleBytes 1 pt ++ uleBytes 1 1 ++ uleBytes 2 its.length ++ uleBytes 2 0) ++
        (flatItems its ++ rest) from by simp only [List.append_assoc],
    show NodeHeaderSize + UInt16Size =
        (uleBytes 1 pt ++ uleBytes 1 1 ++ uleBytes 2 its.length ++ uleBytes 2 0).length
      from by simp [NodeHeaderSize, NodePageTypeSize, NodeTypeSize, NodeNumItemsSize,
        UInt8Size, UInt16Size, uleBytes_length],
    deserializeItems_exact its _ rest hb]

theorem deserialize_exact_internal (pt : Nat) (its : List Item) (cs : List Nat) (rest : Bytes)
    (hni : its.length < 2 ^ 16) (hnc : cs.length < 2 ^ 16)
    (hcs : ∀ c ∈ cs, c < 2 ^ 64)
    (hb : ∀ it ∈ its, it.key.length < 2 ^ 16 ∧ it.value.length < 2 ^ 16) :
    BNode.deserialize (uleBytes 1 pt ++ uleBytes 1 0 ++ uleBytes 2 its.length ++
        uleBytes 2 cs.length ++ flatChildren cs ++ flatItems its ++ rest) =
      some { NewBNode with items := its, childNodes := cs } := by
  have r1 : readULE 1 (uleBytes 1 pt ++ uleBytes 1 0 ++ uleBytes 2 its.length ++
      uleBytes 2 cs.length ++ flatChildren cs ++ flatItems its ++ rest) NodeTypeOffset =
      some 0 := by
    refine readULE_window 1 0 _ (uleBytes 2 its.length ++ (uleBytes 2 cs.length ++
      (flatChildren cs ++ (flatItems its ++ rest)))) NodeTypeOffset
      (by norm_num) (by norm_num) ?_
    rw [show uleBytes 1 pt ++ uleBytes 1 0 ++ uleBytes 2 its.length ++
        uleBytes 2 cs.length ++ flatChildren cs ++ flatItems its ++ rest =
        uleBytes 1 pt ++ (uleBytes 1 0 ++ (uleBytes 2 its.length ++ (uleBytes 2 cs.length ++
          (flatChildren cs ++ (flatItems its ++ rest))))) from by
        simp only [List.append_assoc],
      show NodeTypeOffset = (uleBytes 1 pt).length from by
        simp [NodeTypeOffset, NodePageTypeOffset, NodePageTypeSize, UInt8Size, uleBytes_length]]
    exact List.drop_left _ _
  have r2 : readULE 2 (uleBytes 1 pt ++ uleBytes 1 0 ++ uleBytes 2 its.length ++
      uleBytes 2 cs.length ++ flatChildren cs ++ flatItems its ++ rest) NodeNumItemsOffset =
      some its.length := by
    refine readULE_window 2 its.length _ (uleBytes 2 cs.length ++ (flatChildren cs ++
      (flatItems its ++ rest))) NodeNumItemsOffset (by norm_num) hni ?_
    rw [show uleBytes 1 pt ++ uleBytes 1 0 ++ uleBytes 2 its.length ++
        uleBytes 2 cs.length ++ flatChildren cs ++ flatItems its ++ rest =
        (uleBytes 1 pt ++ uleBytes 1 0) ++ (uleBytes 2 its.length ++ (uleBytes 2 cs.length ++
          (flatChildren cs ++ (flatItems its ++ rest)))) from by
        simp only [List.append_assoc],
      show NodeNumItemsOffset = (uleBytes 1 pt ++ uleBytes 1 0).length from by
        simp [NodeNumItemsOffset, NodeTypeOffset, NodePageTypeOffset, NodePageTypeSize,
          NodeTypeSize, UInt8Size, uleBytes_length]]
    exact List.drop_left _ _
  have r3 : readULE 2 (uleBytes 1 pt ++ uleBytes 1 0 ++ uleBytes 2 its.length ++
      uleBytes 2 cs.length ++ flatChildren cs ++ flatItems its ++ rest) NodeHeaderSize =
      some cs.length := by
    refine readULE_window 2 cs.length _ (flatChildren cs ++ (flatItems its ++ rest))
      NodeHeaderSize (by norm_num) hnc ?_
    rw [show uleBytes 1 pt ++ uleBytes 1 0 ++ uleBytes 2 its.length ++
        uleBytes 2 cs.length ++ flatChildren cs ++ flatItems its ++ rest =
        (uleBytes 1 pt ++ uleBytes 1 0 ++ uleBytes 2 its.length) ++ (uleBytes 2 cs.length ++
          (flatChildren cs ++ (flatItems its ++ rest))) from by
        simp only [List.append_assoc],
      show NodeHeaderSize = (uleBytes 1 pt ++ uleBytes 1 0 ++ uleBytes 2 its.length).length
        from by simp [NodeHeaderSize, NodePageTypeSize, NodeTypeSize, NodeNumItemsSize,
          UInt8Size, UInt16Size, uleBytes_length]]
    exact List.drop_left _ _
  have rc : deserializeChildren (uleBytes 1 pt ++ uleBytes 1 0 ++ uleBytes 2 its.length ++
      uleBytes 2 cs.length ++ flatChildren cs ++ flatItems its ++ rest)
      (NodeHeaderSize + UInt16Size) cs.length = some (cs, 8 * cs.length) := by
    rw [show uleBytes 1 pt ++ uleBytes 1 0 ++ uleBytes 2 its.length ++
        uleBytes 2 cs.length ++ flatChildren cs ++ flatItems its ++ rest =
        (uleBytes 1 pt ++ uleBytes 1 0 ++ uleBytes 2 its.length ++ uleBytes 2 cs.length) ++
          (flatChildren cs ++ (flatItems its ++ rest)) from by
        simp only [List.append_assoc],
      show NodeHeaderSize + UInt16Size = (uleBytes 1 pt ++ uleBytes 1 0 ++
          uleBytes 2 its.length ++ uleBytes 2 cs.length).length from by
        simp [NodeHeaderSize, NodePageTypeSize, NodeTypeSize, NodeNumItemsSize,
          UInt8Size, UInt16Size, uleBytes_length]]
    exact deserializeChildren_exact cs _ (flatItems its ++ rest) hcs
  simp only [BNode.deserialize, r1, r2, r3, if_pos (show (0 : Nat) = 0 from rfl), rc,
    if_true]
  rw [show uleBytes 1 pt ++ uleBytes 1 0 ++ uleBytes 2 its.length ++
      uleBytes 2 cs.length ++ flatChildren cs ++ flatItems its ++ rest =
      (uleBytes 1 pt ++ uleBytes 1 0 ++ uleBytes 2 its.length ++ uleBytes 2 cs.length ++
        flatChildren cs) ++ (flatItems its ++ rest) from by simp only [List.append_assoc],
    show NodeHeaderSize + UInt16Size + UInt64Size * cs.length =
        (uleBytes 1 pt ++ uleBytes 1 0 ++ uleBytes 2 its.length ++ uleBytes 2 cs.length ++
          flatChildren cs).length from by
      simp [NodeHeaderSize, NodePageTypeSize, NodeTypeSize, NodeNumItemsSize,
        UInt8Size, UInt16Size, UInt64Size, uleBytes_length, flatChildren_length] <;> omega,
    deserializeItems_exact its _ rest hb]

theorem serialize_exact (n : BNode) (data0 : Bytes) (h : n.serializedSize ≤ data0.length) :
    ∃ pad, n.serialize data0 = .ok (flatNode n ++ pad) := by
  have hsz : n.serializedSize =
      6 + 8 * n.childNodes.length + (flatItems n.items).length := by
    rw [flatItems_length]
    simp only [BNode.serializedSize, NodeHeaderSize, NodePageTypeSize, NodeTypeSize,
      NodeNumItemsSize, UInt8Size, UInt16Size, UInt64Size]
  refine ⟨((((((List.replicate data0.length 0).drop 1).drop 1).drop 2).drop 2).drop
    (8 * n.childNodes.length)).drop (flatItems n.items).length, ?_⟩
  simp only [BNode.serialize]
  rw [show (List.replicate data0.length 0 : Bytes) =
    [] ++ List.replicate data0.length 0 from rfl]
  simp only [putULE_at 1 NodePage NodePageTypeOffset [] (List.replicate data0.length 0)
    rfl (by simp only [List.length_replicate]; omega)]
  simp only [putULE_at 1 (if n.isLeaf then 1 else 0) NodeTypeOffset
    ([] ++ uleBytes 1 NodePage) ((List.replicate data0.length 0).drop 1)
    (by simp [NodeTypeOffset, NodePageTypeOffset, NodePageTypeSize, UInt8Size, uleBytes_length])
    (by simp only [List.length_drop, List.length_replicate]; omega)]
  simp only [putULE_at 2 (n.numItems % 2 ^ 16) NodeNumItemsOffset
    ([] ++ uleBytes 1 NodePage ++ uleBytes 1 (if n.isLeaf then 1 else 0))
    (((List.replicate data0.length 0).drop 1).drop 1)
    (by simp [NodeNumItemsOffset, NodeTypeOffset, NodePageTypeOffset, NodePageTypeSize,
      NodeTypeSize, UInt8Size, uleBytes_length])
    (by simp only [List.length_drop, List.length_replicate]; omega)]
  simp only [putULE_at 2 (n.childNodes.length % 2 ^ 16) NodeHeaderSize
    ([] ++ uleBytes 1 NodePage ++ uleBytes 1 (if n.isLeaf then 1 else 0) ++
      uleBytes 2 (n.numItems % 2 ^ 16))
    ((((List.replicate data0.length 0).drop 1).drop 1).drop 2)
    (by simp [NodeHeaderSize, NodePageTypeSize, NodeTypeSize, NodeNumItemsSize,
      UInt8Size, UInt16Size, uleBytes_length])
    (by simp only [List.length_drop, List.length_replicate]; omega)]
  rw [show NodeHeaderSize + UInt16Size =
      ([] ++ uleBytes 1 NodePage ++ uleBytes 1 (if n.isLeaf then 1 else 0) ++
        uleBytes 2 (n.numItems % 2 ^ 16) ++ uleBytes 2 (n.childNodes.length % 2 ^ 16)).length
    from by simp [NodeHeaderSize, NodePageTypeSize, NodeTypeSize, NodeNumItemsSize,
      UInt8Size, UInt16Size, uleBytes_length]]
  simp only [serializeChildren_exact n.childNodes
    ([] ++ uleBytes 1 NodePage ++ uleBytes 1 (if n.isLeaf then 1 else 0) ++
      uleBytes 2 (n.numItems % 2 ^ 16) ++ uleBytes 2 (n.childNodes.length % 2 ^ 16))
    (((((List.replicate data0.length 0).drop 1).drop 1).drop 2).drop 2)
    (by simp only [List.length_drop, List.length_replicate]; omega)]
  have hpos6 : ([] ++ uleBytes 1 NodePage ++ uleBytes 1 (if n.isLeaf then 1 else 0) ++
      uleBytes 2 (n.numItems % 2 ^ 16) ++ uleBytes 2 (n.childNodes.length % 2 ^ 16)).length +
      UInt64Size * n.childNodes.length =
      ([] ++ uleBytes 1 NodePage ++ uleBytes 1 (if n.isLeaf then 1 else 0) ++
        uleBytes 2 (n.numItems % 2 ^ 16) ++ uleBytes 2 (n.childNodes.length % 2 ^ 16) ++
        flatChildren n.childNodes).length := by
    simp only [List.length_append, List.length_nil, uleBytes_length, flatChildren_length,
      UInt64Size]
  rw [hpos6]
  simp only [serializeItems_exact n.items
    ([] ++ uleBytes 1 NodePage ++ uleBytes 1 (if n.isLeaf then 1 else 0) ++
      uleBytes 2 (n.numItems % 2 ^ 16) ++ uleBytes 2 (n.childNodes.length % 2 ^ 16) ++
      flatChildren n.childNodes)
    ((((((List.replicate data0.length 0).drop 1).drop 1).drop 2).drop 2).drop
      (8 * n.childNodes.length))
    (by simp only [List.length_drop, List.length_replicate]; omega)]
  simp only [flatNode, List.append_assoc, List.nil_append]

/-- Concrete internal node (two items, three children) used to witness the
round-trip theorem on a 64-byte buffer. -/
def c7Node : BNode := ⟨7, [⟨[9], [1, 2, 3]⟩, ⟨[10], [4]⟩], [11, 12, 13]⟩

/-- Claim C7: for every valid node (ordered items, leaf iff zero children,
internal node with N items has N + 1 children, machine-integer fields in
range) whose serialization fits in the page buffer — so `Serialize` succeeds —
deserializing the bytes `Serialize` produced yields a node with identical
items (keys and values), identical child page numbers, and the same
leaf/internal status. -/
theorem C7_serialize_deserialize_roundtrip (n : BNode) (data0 : Bytes)
    (hvalid : validNode n) (hfits : n.serializedSize ≤ data0.length) :
    ∃ out, n.serialize data0 = .ok out ∧
      BNode.deserialize out =
        some { NewBNode with items := n.items, childNodes := n.childNodes } ∧
      ({ NewBNode with items := n.items, childNodes := n.childNodes } : BNode).isLeaf =
        n.isLeaf := by
  obtain ⟨hord, hcc, hni, hnc, hcb, hib⟩ := hvalid
  obtain ⟨pad, hser⟩ := serialize_exact n data0 hfits
  refine ⟨flatNode n ++ pad, hser, ?_, rfl⟩
  by_cases hleaf : n.isLeaf = true
  · have hcs0 : n.childNodes = [] := by
      have hz := hleaf
      unfold BNode.isLeaf BNode.numChildren at hz
      exact List.eq_nil_of_length_eq_zero (by simpa using hz)
    rw [show flatNode n ++ pad = uleBytes 1 NodePage ++ uleBytes 1 1 ++
        uleBytes 2 n.items.length ++ uleBytes 2 0 ++ flatItems n.items ++ pad from by
      simp [flatNode, hcs0, hleaf, BNode.numItems, flatChildren,
        Nat.mod_eq_of_lt (show n.items.length < 65536 from hni)]]
    rw [deserialize_exact_leaf NodePage n.items pad hni hib, hcs0]
  · have hleaf2 : n.isLeaf = false := eq_false_of_ne_true hleaf
    rw [show flatNode n ++ pad = uleBytes 1 NodePage ++ uleBytes 1 0 ++
        uleBytes 2 n.items.length ++ uleBytes 2 n.childNodes.length ++
        flatChildren n.childNodes ++ flatItems n.items ++ pad from by
      simp [flatNode, hleaf2, BNode.numItems,
        Nat.mod_eq_of_lt (show n.items.length < 65536 from hni),
        Nat.mod_eq_of_lt (show n.childNodes.length < 65536 from hnc)]]
    exact deserialize_exact_internal NodePage n.items n.childNodes pad hni hnc hcb hib

/-- Witness for C7: `c7Node` is valid, its serialization fits in 64 bytes, and
the round-trip conclusion holds for it. -/
theorem C7_roundtrip_witness :
    validNode c7Node ∧ c7Node.serializedSize ≤ (List.replicate 64 (0 : Nat)).length ∧
      (∃ out, c7Node.serialize (List.replicate 64 0) = .ok out ∧
        BNode.deserialize out =
          some { NewBNode with items := c7Node.items, childNodes := c7Node.childNodes } ∧
        ({ NewBNode with items := c7Node.items, childNodes := c7Node.childNodes } :
          BNode).isLeaf = c7Node.isLeaf) :=
  ⟨by decide, by decide,
    C7_serialize_deserialize_roundtrip c7Node (List.replicate 64 0) (by decide) (by decide)⟩

/-- Frame relation for the Put path: the transaction's pages-to-delete list is
unchanged and the freelist's released list has only been popped (never pushed),
so the after-list is a prefix of the before-list. -/
def framePreserved (st st' : St) : Prop :=
  st'.tx.pagesToDelete = st.tx.pagesToDelete ∧
  ∃ t, st.dal.freelist.releasedPages = st'.dal.freelist.releasedPages ++ t

theorem framePreserved_refl (st : St) : framePreserved st st :=
  ⟨rfl, [], by simp⟩

theorem framePreserved_trans {a b c : St} (h1 : framePreserved a b)
    (h2 : framePreserved b c) : framePreserved a c := by
  obtain ⟨hp1, t1, ht1⟩ := h1
  obtain ⟨hp2, t2, ht2⟩ := h2
  exact ⟨hp2.trans hp1, t2 ++ t1, by rw [ht1, ht2, List.append_assoc]⟩

theorem getNextPageNumber_released (f : Freelist) (p : Nat) (f' : Freelist)
    (h : f.GetNextPageNumber = .ok (p, f')) :
    ∃ t, f.releasedPages = f'.releasedPages ++ t := by
  simp only [Freelist.GetNextPageNumber] at h
  split at h
  · cases h
    refine ⟨f.releasedPages.drop (f.releasedPages.length - 1), ?_⟩
    show f.releasedPages = f.releasedPages.dropLast ++ _
    rw [List.dropLast_eq_take, List.take_append_drop]
  · split at h
    · cases h
    · cases h
      exact ⟨[], by simp⟩

theorem expandAllocation_released (dal : Dal) :
    dal.expandAllocation.freelist.releasedPages = dal.freelist.releasedPages := by
  unfold Dal.expandAllocation Dal.allocateFile
  split <;> rfl

theorem allocatePage_released (dal : Dal) (page : Page) (dal' : Dal)
    (h : dal.AllocatePage = .ok (page, dal')) :
    ∃ t, dal.freelist.releasedPages = dal'.freelist.releasedPages ++ t := by
  simp only [Dal.AllocatePage] at h
  split at h
  case h_1 num f hg =>
    split at h
    · cases h
    · cases h
      exact getNextPageNumber_released dal.freelist num f hg
  case h_2 hg =>
    split at h
    · cases h
    case h_2 num f hg2 =>
      split at h
      · cases h
      · cases h
        have h2 := getNextPageNumber_released dal.expandAllocation.freelist num f hg2
        rw [expandAllocation_released] at h2
        exact h2
  case h_3 e hne hg => cases h

theorem setNode_frame (st : St) (n : BNode) : framePreserved st (Tx.setNode st n) :=
  ⟨rfl, [], by simp [Tx.setNode]⟩

theorem setPage_frame (st : St) (p : Page) : framePreserved st (Tx.setPage st p) :=
  ⟨rfl, [], by simp [Tx.setPage]⟩

theorem syncBucket_frame (st : St) (b : Bucket) : framePreserved st (st.syncBucket b) := by
  unfold St.syncBucket
  split
  · exact framePreserved_refl st
  · exact ⟨rfl, [], by simp⟩

theorem writeNodes_frame (st : St) (nodes : List BNode) :
    framePreserved st (Tx.writeNodes st nodes) := by
  unfold Tx.writeNodes
  induction nodes generalizing st with
  | nil => exact framePreserved_refl st
  | cons n rest ih =>
    exact framePreserved_trans (setNode_frame st n) (ih (Tx.setNode st n))

theorem newNode_frame (st : St) (items : List Item) (cn : List Nat) (node : BNode)
    (st' : St) (h : Tx.newNode st items cn = .ok (node, st')) : framePreserved st st' := by
  simp only [Tx.newNode] at h
  split at h
  · cases h
  case h_2 page dal hg =>
    cases h
    exact ⟨rfl, allocatePage_released st.dal page dal hg⟩

theorem blobAllocPages_frame (n : Nat) (st : St) (pages : List Page) (st' : St)
    (h : blobAllocPages st n = .ok (pages, st')) : framePreserved st st' := by
  induction n generalizing st pages with
  | zero =>
    simp only [blobAllocPages] at h
    cases h
    exact framePreserved_refl _
  | succ n ih =>
    simp only [blobAllocPages] at h
    split at h
    · cases h
    case h_2 page dal hg =>
      split at h
      · cases h
      case h_2 ps st2 hrec =>
        cases h
        refine framePreserved_trans ?_ (ih _ _ hrec)
        exact ⟨rfl, allocatePage_released st.dal page dal hg⟩

theorem blobSaveLoop_frame (blob : Blob) (pages : List Page) (st : St)
    (pageIndex dataOffset bytesRemaining : Nat) (st' : St)
    (h : blobSaveLoop blob st pages pageIndex dataOffset bytesRemaining = .ok st') :
    framePreserved st st' := by
  induction pages generalizing st pageIndex dataOffset bytesRemaining with
  | nil =>
    simp only [blobSaveLoop] at h
    cases h
    exact framePreserved_refl _
  | cons page rest ih =>
    simp only [blobSaveLoop] at h
    split at h
    · cases h
    · split at h
      · cases h
      · split at h
        · cases h
        · exact framePreserved_trans (setPage_frame st _) (ih _ _ _ _ h)

theorem blobSave_frame (blob : Blob) (st : St) (p : Nat) (st' : St)
    (h : blob.save st = .ok (p, st')) : framePreserved st st' := by
  simp only [Blob.save] at h
  split at h
  · cases h
  case h_2 pages st2 halloc =>
    split at h
    · cases h
    case h_2 st3 hloop =>
      split at h
      · cases h
      · cases h
        exact framePreserved_trans (blobAllocPages_frame _ _ _ _ halloc)
          (blobSaveLoop_frame _ _ _ _ _ _ _ hloop)

theorem setValue_frame (item : Item) (st : St) (item' : Item) (st' : St)
    (h : Item.setValue item st = .ok (item', st')) : framePreserved st st' := by
  simp only [Item.setValue] at h
  split at h
  · split at h
    · cases h
    · split at h
      · cases h
      case h_2 p st2 hsave =>
        cases h
        exact blobSave_frame _ _ _ _ hsave
  · cases h
    exact framePreserved_refl st

theorem splitChild_frame (st : St) (node fullNode : BNode) (idx : Nat) (st' : St)
    (h : splitChild st node fullNode idx = .ok st') : framePreserved st st' := by
  simp only [splitChild] at h
  split at h
  · cases h
  · split at h
    · cases h
    · split at h
      · cases h
      case h_2 nn fn st2 heq =>
        cases h
        split at heq
        · split at heq
          · cases heq
          case h_2 nn2 st3 hnew =>
            cases heq
            exact framePreserved_trans
              (framePreserved_trans (newNode_frame _ _ _ _ _ hnew) (setNode_frame _ _))
              (writeNodes_frame _ _)
        · split at heq
          · cases heq
          case h_2 nn2 st3 hnew =>
            cases heq
            exact framePreserved_trans
              (framePreserved_trans (newNode_frame _ _ _ _ _ hnew) (setNode_frame _ _))
              (writeNodes_frame _ _)

theorem putRebalanceFrom_frame (pathPages breadcrumbs : List Nat) (i : Nat) (st : St)
    (st' : St) (h : putRebalanceFrom pathPages breadcrumbs i st = .ok st') :
    framePreserved st st' := by
  induction i generalizing st with
  | zero =>
    simp only [putRebalanceFrom] at h
    cases h
    exact framePreserved_refl _
  | succ i ih =>
    simp only [putRebalanceFrom] at h
    split at h
    · split at h
      · split at h
        · split at h
          · cases h
          case h_2 st2 hsplit =>
            exact framePreserved_trans (splitChild_frame _ _ _ _ _ hsplit) (ih _ h)
        · exact ih _ h
      · cases h
    · cases h

theorem put_frame (fuel0 : Nat) (bucket : Bucket) (key value : Bytes) (st : St)
    (bucket' : Bucket) (st' : St)
    (h : Bucket.Put fuel0 bucket key value st = .ok (bucket', st')) :
    framePreserved st st' := by
  induction fuel0 generalizing bucket key value st bucket' st' with
  | zero =>
    simp only [Bucket.Put] at h
    cases h
  | succ fuel ih =>
    simp only [Bucket.Put] at h
    split at h
    · cases h
    split at h
    · cases h
    split at h
    · cases h
    split at h
    · cases h
    case h_2 item st1 hsv =>
    split at h
    · -- root = 0: create root
      split at h
      · cases h
      case h_2 root0 st2 hnew =>
        cases h
        exact framePreserved_trans (setValue_frame _ _ _ _ hsv)
          (framePreserved_trans (newNode_frame _ _ _ _ _ hnew)
            (framePreserved_trans (setNode_frame _ _) (syncBucket_frame _ _)))
    · -- descend
      split at h
      · cases h
      case h_2 root hroot =>
      split at h
      · cases h
      case h_2 ii nti bc found hfind =>
      split at h
      · cases h
      split at h
      · cases h
      case h_2 nd =>
      split at h
      · cases h
      case h_2 nodes hgn =>
      split at h
      · cases h
      case h_2 st4 hreb =>
      split at h
      · cases h
      case h_2 rootPage hhead =>
      split at h
      · cases h
      case h_2 rootNode hrootN =>
      split at h
      · cases h
      case h_2 b2 st5 hAS =>
      cases h
      refine framePreserved_trans (setValue_frame _ _ _ _ hsv)
        (framePreserved_trans (setNode_frame _ _)
          (framePreserved_trans (putRebalanceFrom_frame _ _ _ _ _ hreb)
            (framePreserved_trans ?_ (syncBucket_frame _ _))))
      split at hAS
      · -- root over-populated
        split at hAS
        · cases hAS
        case h_2 newRoot0 stC hnew2 =>
        split at hAS
        · cases hAS
        case h_2 stD hsc =>
        split at hAS
        · cases hAS
        case h_2 newRoot hgetNR =>
        split at hAS
        · cases hAS
          exact framePreserved_trans (newNode_frame _ _ _ _ _ hnew2)
            (framePreserved_trans (splitChild_frame _ _ _ _ _ hsc)
              (framePreserved_trans (setNode_frame _ _) ⟨rfl, [], by simp⟩))
        · split at hAS
          · cases hAS
          case h_2 bR stF hrec =>
            cases hAS
            exact framePreserved_trans (newNode_frame _ _ _ _ _ hnew2)
              (framePreserved_trans (splitChild_frame _ _ _ _ _ hsc)
                (framePreserved_trans (setNode_frame _ _) (ih _ _ _ _ _ _ hrec)))
      · cases hAS
        exact framePreserved_refl _

/-- Pager-consistency invariant: the page size is positive and the file covers
`maxPages` pages (true of every state `NewDal` produces and `allocateFile`
maintains). -/
def dalInv (dal : Dal) : Prop :=
  0 < dal.meta.pageSize ∧ dal.maxPages * dal.meta.pageSize ≤ dal.size

/-- Read-compatible evolution of the pager: file content and meta unchanged,
page bound not shrunk. -/
def dalReadLe (d d' : Dal) : Prop :=
  d'.filePages = d.filePages ∧ d'.meta = d.meta ∧ d.maxPages ≤ d'.maxPages

theorem dalReadLe_refl (d : Dal) : dalReadLe d d := ⟨rfl, rfl, le_refl _⟩

theorem dalReadLe_trans {a b c : Dal} (h1 : dalReadLe a b) (h2 : dalReadLe b c) :
    dalReadLe a c :=
  ⟨h2.1.trans h1.1, h2.2.1.trans h1.2.1, h1.2.2.trans h2.2.2⟩

/-- Read-compatible evolution of a transaction state: dirty nodes unchanged and
the pager read-compatible. -/
def readCompat (st st1 : St) : Prop :=
  st1.tx.dirtyNodes = st.tx.dirtyNodes ∧ dalReadLe st.dal st1.dal

theorem readCompat_refl (st : St) : readCompat st st := ⟨rfl, dalReadLe_refl _⟩

theorem readCompat_trans {a b c : St} (h1 : readCompat a b) (h2 : readCompat b c) :
    readCompat a c :=
  ⟨h2.1.trans h1.1, dalReadLe_trans h1.2 h2.2⟩

theorem getNode_compat {st st1 : St} (hc : readCompat st st1) (p : Nat) (nd : BNode)
    (hg : Tx.getNode st p = .ok nd) : Tx.getNode st1 p = .ok nd := by
  obtain ⟨hdn, hfp, hm, hmx⟩ := hc
  unfold Tx.getNode at hg ⊢
  rw [hdn]
  cases halk : alookup st.tx.dirtyNodes p with
  | some node =>
    rw [halk] at hg
    exact hg
  | none =>
    rw [halk] at hg
    change st.dal.getNode p = .ok nd at hg
    change st1.dal.getNode p = .ok nd
    unfold Dal.getNode at hg ⊢
    cases hgp : st.dal.GetPage p with
    | error e => rw [hgp] at hg; cases hg
    | ok page =>
      have hgp1 : st1.dal.GetPage p = .ok page := by
        unfold Dal.GetPage at hgp ⊢
        split at hgp
        · cases hgp
        case isFalse hb =>
          rw [if_neg (by omega)]
          cases hgp
          unfold Dal.lookupFile
          rw [hfp, hm]
      rw [hgp] at hg
      rw [hgp1]
      exact hg

theorem expandAllocation_compat (dal : Dal) (hinv : dalInv dal) :
    dalReadLe dal dal.expandAllocation ∧ dalInv dal.expandAllocation := by
  obtain ⟨hps, hsz⟩ := hinv
  have key : ∀ sz, dal.size ≤ sz →
      dalReadLe dal (dal.allocateFile sz) ∧ dalInv (dal.allocateFile sz) := by
    intro sz hle
    unfold Dal.allocateFile
    refine ⟨⟨rfl, rfl, ?_⟩, ⟨hps, ?_⟩⟩
    · show dal.maxPages ≤ sz / dal.meta.pageSize
      have h1 : dal.maxPages ≤ dal.size / dal.meta.pageSize :=
        Nat.le_div_iff_mul_le hps |>.mpr hsz
      exact h1.trans (Nat.div_le_div_right hle)
    · show sz / dal.meta.pageSize * dal.meta.pageSize ≤ sz
      exact Nat.div_mul_le_self sz dal.meta.pageSize
  unfold Dal.expandAllocation
  split
  · exact key _ (by omega)
  · exact key _ (by omega)

theorem allocatePage_compat (dal : Dal) (page : Page) (dal' : Dal) (hinv : dalInv dal)
    (h : dal.AllocatePage = .ok (page, dal')) : dalReadLe dal dal' ∧ dalInv dal' := by
  simp only [Dal.AllocatePage] at h
  split at h
  · split at h
    · cases h
    · cases h
      exact ⟨⟨rfl, rfl, le_refl _⟩, hinv⟩
  · split at h
    · cases h
    · split at h
      · cases h
      · cases h
        obtain ⟨hrl, hinv2⟩ := expandAllocation_compat dal hinv
        exact ⟨⟨hrl.1, hrl.2.1, hrl.2.2⟩, hinv2⟩
  · cases h

theorem setPage_compat (st : St) (p : Page) : readCompat st (Tx.setPage st p) :=
  ⟨rfl, dalReadLe_refl _⟩

theorem blobAllocPages_compat (n : Nat) (st : St) (pages : List Page) (st' : St)
    (hinv : dalInv st.dal) (h : blobAllocPages st n = .ok (pages, st')) :
    readCompat st st' ∧ dalInv st'.dal := by
  induction n generalizing st pages with
  | zero =>
    simp only [blobAllocPages] at h
    cases h
    exact ⟨readCompat_refl _, hinv⟩
  | succ n ih =>
    simp only [blobAllocPages] at h
    split at h
    · cases h
    case h_2 page dal hg =>
      split at h
      · cases h
      case h_2 ps st2 hrec =>
        cases h
        obtain ⟨hrl, hinv2⟩ := allocatePage_compat st.dal page dal hinv hg
        obtain ⟨hc2, hinv3⟩ := ih { st with dal := dal } _ hinv2 hrec
        have hstep : readCompat st { st with dal := dal } := ⟨rfl, hrl⟩
        exact ⟨readCompat_trans hstep hc2, hinv3⟩

theorem blobSaveLoop_compat (blob : Blob) (pages : List Page) (st : St)
    (pageIndex dataOffset bytesRemaining : Nat) (st' : St)
    (h : blobSaveLoop blob st pages pageIndex dataOffset bytesRemaining = .ok st') :
    readCompat st st' ∧ st'.dal = st.dal := by
  induction pages generalizing st pageIndex dataOffset bytesRemaining with
  | nil =>
    simp only [blobSaveLoop] at h
    cases h
    exact ⟨readCompat_refl _, rfl⟩
  | cons page rest ih =>
    simp only [blobSaveLoop] at h
    split at h
    · cases h
    · split at h
      · cases h
      · split at h
        · cases h
        · obtain ⟨hc, hd⟩ := ih _ _ _ _ h
          exact ⟨readCompat_trans (setPage_compat st _) hc, hd⟩

theorem blobSave_compat (blob : Blob) (st : St) (p : Nat) (st' : St)
    (hinv : dalInv st.dal) (h : blob.save st = .ok (p, st')) :
    readCompat st st' ∧ dalInv st'.dal := by
  simp only [Blob.save] at h
  split at h
  · cases h
  case h_2 pages st2 halloc =>
    split at h
    · cases h
    case h_2 st3 hloop =>
      split at h
      · cases h
      · cases h
        obtain ⟨hc1, hinv2⟩ := blobAllocPages_compat _ _ _ _ hinv halloc
        obtain ⟨hc2, hd⟩ := blobSaveLoop_compat _ _ _ _ _ _ _ hloop
        exact ⟨readCompat_trans hc1 hc2, by rw [hd]; exact hinv2⟩

theorem setValue_compat (item : Item) (st : St) (item' : Item) (st' : St)
    (hinv : dalInv st.dal) (h : Item.setValue item st = .ok (item', st')) :
    readCompat st st' := by
  simp only [Item.setValue] at h
  split at h
  · split at h
    · cases h
    · split at h
      · cases h
      case h_2 p st2 hsave =>
        cases h
        exact (blobSave_compat _ _ _ _ hinv hsave).1
  · cases h
    exact readCompat_refl _

theorem setValue_key (item : Item) (st : St) (item' : Item) (st' : St)
    (h : Item.setValue item st = .ok (item', st')) : item'.key = item.key := by
  simp only [Item.setValue] at h
  split at h
  · split at h
    · cases h
    · split at h
      · cases h
      · cases h
        rfl
  · cases h
    rfl

theorem findKeyLoop_found (items : List Item) (key : Bytes) (fuel : Nat) (left right : Int)
    (hl : 0 ≤ left) (hr : right < (items.length : Int)) (p : Nat)
    (h : findKeyLoop items key fuel left right = (p, true)) :
    p < items.length ∧ bytesCompare (items.getD p ⟨[], []⟩).key key = .eq := by
  induction fuel generalizing left right with
  | zero =>
    simp only [findKeyLoop] at h
    cases h
  | succ fuel ih =>
    simp only [findKeyLoop] at h
    split at h
    case isTrue hlr =>
      have hmid1 : 0 ≤ (right - left) / 2 := Int.ediv_nonneg (by omega) (by norm_num)
      have hmid2 : (right - left) / 2 ≤ right - left := Int.ediv_le_self _ (by omega)
      split at h
      case h_1 heqc =>
        cases h
        constructor
        · omega
        · exact heqc
      case h_2 heqc => exact ih _ _ (by omega) hr h
      case h_3 heqc => exact ih _ _ hl (by omega) h
    case isFalse hlr => cases h

theorem findKeyPosition_found (node : BNode) (key : Bytes) (p : Nat)
    (h : node.findKeyPosition key = (p, true)) :
    p < node.items.length ∧ bytesCompare (node.items.getD p ⟨[], []⟩).key key = .eq := by
  unfold BNode.findKeyPosition at h
  split at h
  · cases h
  · exact findKeyLoop_found node.items key _ 0 _ (le_refl 0) (by omega) p h

theorem traverse_found_compat (fuel : Nat) (st st1 : St) (key : Bytes)
    (node : BNode) (anc : List Nat) (p : Int) (nd : BNode) (a : List Nat)
    (hc : readCompat st st1)
    (h : traverseBTree st key true fuel node anc = .ok (p, some nd, a, true)) :
    traverseBTree st1 key false fuel node anc = .ok (p, some nd, a, true) ∧
    nd.findKeyPosition key = (p.toNat, true) ∧ 0 ≤ p := by
  induction fuel generalizing node anc with
  | zero =>
    simp only [traverseBTree] at h
    cases h
  | succ fuel ih =>
    simp only [traverseBTree] at h ⊢
    cases hfk : node.findKeyPosition key with
    | mk pos isFound =>
      cases isFound with
      | true =>
        rw [hfk] at h
        dsimp only at h
        rw [if_pos rfl] at h ⊢
        cases h
        refine ⟨rfl, ?_, by omega⟩
        rw [hfk]
        congr 1
      | false =>
        rw [hfk] at h
        dsimp only at h ⊢
        rw [if_neg (by simp)] at h ⊢
        split at h
        · rw [if_pos trivial] at h
          cases h
        case isFalse hnl =>
          rw [if_neg hnl]
          split at h
          · cases h
          case h_2 childPage hcp =>
            split at h
            · cases h
            case h_2 child hget =>
              rw [getNode_compat hc childPage child hget]
              exact ih child _ h

/-- Claim C10: for every `Put(k, v2)` in a write transaction where `k` already
exists (the exact-search descent finds it in a leaf) and its previous value is
stored as a blob chain (the stored item carries the `ValueBlob` tag), the
overwrite replaces the item in place and releases nothing: the transaction's
pages-to-delete list is unchanged, the freelist's released list gains no page
(the after-list is a prefix of the before-list, pages being only popped by
allocations), and the bucket's `itemsN`, `blobsN` and `bytesInUse` counters are
unchanged by the overwrite. -/
theorem C10_put_blob_overwrite (fuel0 : Nat) (bucket : Bucket) (key value : Bytes)
    (st : St) (root leafNode : BNode) (posI : Int) (bc : List Nat) (oldIt : Item)
    (bucket' : Bucket) (st' : St)
    (hps : 0 < st.dal.meta.pageSize)
    (hsz : st.dal.maxPages * st.dal.meta.pageSize ≤ st.dal.size)
    (hroot : Tx.getNode st bucket.root = .ok root)
    (hfind : root.find st fuel0 key true = .ok (posI, some leafNode, bc, true))
    (hitem : leafNode.items.get? posI.toNat = some oldIt)
    (htag : oldIt.value.head? = some ValueBlob)
    (hput : Bucket.Put fuel0 bucket key value st = .ok (bucket', st')) :
    bucket'.itemsN = bucket.itemsN ∧ bucket'.blobsN = bucket.blobsN ∧
    bucket'.bytesInUse = bucket.bytesInUse ∧
    st'.tx.pagesToDelete = st.tx.pagesToDelete ∧
    ∃ t, st.dal.freelist.releasedPages = st'.dal.freelist.releasedPages ++ t := by
  have hframe := put_frame fuel0 bucket key value st bucket' st' hput
  suffices hcnt : bucket'.itemsN = bucket.itemsN ∧ bucket'.blobsN = bucket.blobsN ∧
      bucket'.bytesInUse = bucket.bytesInUse by
    exact ⟨hcnt.1, hcnt.2.1, hcnt.2.2, hframe.1, hframe.2⟩
  cases fuel0 with
  | zero =>
    simp only [Bucket.Put] at hput
    cases hput
  | succ fuel =>
    simp only [Bucket.Put] at hput
    split at hput
    · cases hput
    split at hput
    · cases hput
    split at hput
    · cases hput
    split at hput
    · cases hput
    case h_2 item st1 hsv =>
    split at hput
    · split at hput
      · cases hput
      case h_2 root0 st2 hnew =>
        cases hput
        exact ⟨rfl, rfl, rfl⟩
    · have hcompat : readCompat st st1 := setValue_compat _ _ _ _ ⟨hps, hsz⟩ hsv
      have hroot1 : Tx.getNode st1 bucket.root = .ok root := getNode_compat hcompat _ _ hroot
      have hkeyeq : item.key = key := setValue_key _ _ _ _ hsv
      obtain ⟨hfind1, hfkp, hposn⟩ :=
        traverse_found_compat (fuel + 1) st st1 key root [0] posI leafNode bc hcompat hfind
      split at hput
      · cases hput
      case h_2 root1 hroot1e =>
      rw [hroot1] at hroot1e
      cases hroot1e
      split at hput
      · cases hput
      case h_2 ii nti bc2 found hfinde =>
      rw [hkeyeq] at hfinde
      unfold BNode.find at hfinde
      rw [hfind1] at hfinde
      simp only [Except.ok.injEq, Prod.mk.injEq] at hfinde
      obtain ⟨he1, he2, he3, he4⟩ := hfinde
      subst he1
      subst he2
      subst he3
      subst he4
      split at hput
      · cases hput
      dsimp only at hput
      obtain ⟨hlt2, hcmp2⟩ := findKeyPosition_found leafNode key posI.toNat hfkp
      have hgetd : leafNode.items.getD posI.toNat ⟨[], []⟩ = oldIt := by
        rw [List.getD_eq_getElem?_getD, ← List.get?_eq_getElem?, hitem]
        rfl
      rw [hgetd] at hcmp2
      have hne2 : decide (leafNode.items ≠ []) = true :=
        decide_eq_true (List.ne_nil_of_length_pos (by omega))
      have hltb : decide (posI.toNat < leafNode.items.length) = true := decide_eq_true hlt2
      have hcmpb : (bytesCompare oldIt.key key == Ordering.eq) = true := by
        rw [hcmp2]
        rfl
      simp only [hne2, hltb, hitem, hcmpb, Bool.true_and, Bool.and_true, Bool.and_self,
        eq_self_iff_true, not_true, if_true, if_false] at hput
      split at hput
      · cases hput
      case h_2 nodes hgn =>
      split at hput
      · cases hput
      case h_2 st4 hreb =>
      split at hput
      · cases hput
      case h_2 rootPage hhead =>
      split at hput
      · cases hput
      case h_2 rootNode hrootN =>
      split at hput
      · cases hput
      case h_2 b2 st5 hAS =>
      cases hput
      split at hAS
      · split at hAS
        · cases hAS
        case h_2 newRoot0 stC hnew2 =>
        split at hAS
        · cases hAS
        case h_2 stD hsc =>
        split at hAS
        · cases hAS
        case h_2 newRoot hgetNR =>
        split at hAS
        · cases hAS
          exact ⟨rfl, rfl, rfl⟩
        · split at hAS
          · cases hAS
          case h_2 bR stF hrec =>
            cases hAS
            exact ⟨rfl, rfl, rfl⟩
      · cases hAS
        exact ⟨rfl, rfl, rfl⟩

/-- Concrete state for the C10 witness: a single leaf with one blob-tagged
item, reachable through the transaction's dirty-node cache. -/
def c10OldItem : Item := ⟨[97], ValueBlob :: [9, 9, 9, 9, 9, 9, 9, 9]⟩

def c10Leaf : BNode := ⟨2, [c10OldItem], []⟩

def c10Bucket : Bucket :=
  { name := [98]
    root := 2
    counter := 0
    itemsN := 1
    blobsN := 1
    bytesInUse := 100
    txBound := true }

def c10Dal : Dal :=
  { filePages := [], size := 0, maxPages := 0, freelist := NewFreelist 4096 0,
    meta := ⟨dbNameBytes, 1, 0, 0, 4096⟩, txLog := NewTxLog [], trace := [] }

def c10St : St := { tx := { newTx true with dirtyNodes := [(2, c10Leaf)] }, dal := c10Dal }

def c10Out : Bucket × St :=
  match Bucket.Put 2 c10Bucket [97] [5, 6] c10St with
  | .ok r => r
  | .error _ => (c10Bucket, c10St)

/-- Witness for C10: a committed one-leaf bucket holding a blob-tagged item
under key `[97]`; overwriting it leaves the counters, the pages-to-delete list
and the released list untouched. -/
theorem C10_overwrite_witness :
    Tx.getNode c10St c10Bucket.root = .ok c10Leaf ∧
    c10Leaf.find c10St 2 [97] true = .ok (0, some c10Leaf, [0], true) ∧
    c10OldItem.value.head? = some ValueBlob ∧
    Bucket.Put 2 c10Bucket [97] [5, 6] c10St = .ok (c10Out.1, c10Out.2) ∧
    c10Out.1.itemsN = c10Bucket.itemsN ∧ c10Out.1.blobsN = c10Bucket.blobsN ∧
    c10Out.1.bytesInUse = c10Bucket.bytesInUse ∧
    c10Out.2.tx.pagesToDelete = c10St.tx.pagesToDelete ∧
    (∃ t, c10St.dal.freelist.releasedPages = c10Out.2.dal.freelist.releasedPages ++ t) :=
  have H := C10_put_blob_overwrite 2 c10Bucket [97] [5, 6] c10St c10Leaf c10Leaf 0 [0]
    c10OldItem c10Out.1 c10Out.2 (by decide) (by decide) (by decide) (by decide)
    (by decide) (by decide) (by decide)
  ⟨by decide, by decide, by decide, by decide, H.1, H.2.1, H.2.2.1, H.2.2.2.1, H.2.2.2.2⟩

end PirinDB
